import Mathlib

/-!
# Verification of the jacobian-saes repository

This file gives a shallow embedding of the parts of the repository that the
claims refer to, together with theorems settling each claim.

Tensor entries are modelled by exact integer arithmetic (`ℤ`): none of the
modelled computations divide, so every identity proved here is the exact
algebraic content of the corresponding floating-point code, and every
definition is executable by the kernel.

The embedded components:
* the toy-model notebook `2024-10-25_jacobian_toy_model.ipynb`
  (`SAE`, `MLP`, `wd1`, `w2e`, `get_jacobian_slow`, `get_jacobian_fast`);
* the `MLPWithActGrads` subclass of the TransformerLens `MLP`;
* the `hpc_utils/extract_args` CLI helper (an executable model of the
  `argparse` parser it declares);
* the rsync shell script that syncs code to the BluePebble cluster;
* the wandb artifact bulk-download script.

The file is organised as: all definitions first, then all theorems.
-/

namespace JacobianSaes

/-! ## Definitions: toy-model notebook (SAE, MLP, the two Jacobians)

Embedding of `src/notebooks/2024-10-25_jacobian_toy_model.ipynb`.
-/

/-- Descending insertion in the style of `torch.topk`: insert `a` into `l` before the
first element whose value is smaller, breaking value ties by lower index.
(The tie order of `torch.topk` is unspecified; this fixes one order.) -/
def insertDesc {n : ℕ} (v : Fin n → ℤ) (a : Fin n) : List (Fin n) → List (Fin n)
  | [] => [a]
  | b :: l => if v b < v a ∨ (v a = v b ∧ a ≤ b) then a :: b :: l else b :: insertDesc v a l

/-- Sort a list of indices so their `v`-values are descending. -/
def sortDesc {n : ℕ} (v : Fin n → ℤ) (l : List (Fin n)) : List (Fin n) :=
  l.foldr (insertDesc v) []

/-- The index of the `i`-th largest entry of `v` (model of
`torch.topk(v, k).indices[i]`; requires `k ≤ n`, as `torch.topk` does). -/
def topkIdx {n : ℕ} (v : Fin n → ℤ) (k : ℕ) (hk : k ≤ n) (i : Fin k) : Fin n :=
  (sortDesc v (List.finRange n)).getD i.val ⟨0, lt_of_lt_of_le i.pos hk⟩

/-- The notebook's toy `SAE` module (cell 2 of the toy-model notebook).
`hk : k ≤ d_sae` records that `torch.topk` needs at most `d_sae` values. -/
structure SAE (d_in d_sae k : ℕ) where
  W_enc : Fin d_sae → Fin d_in → ℤ
  b_enc : Fin d_sae → ℤ
  W_dec : Fin d_in → Fin d_sae → ℤ
  b_dec : Fin d_in → ℤ
  hk : k ≤ d_sae

variable {d_in d_sae k d_resid d_mlp n_tokens : ℕ}

/-- Computes `F.linear(x, W_enc, b_enc)`: the pre-top-k encoder activations. -/
def SAE.encActs (sae : SAE d_in d_sae k) (x : Fin d_in → ℤ) : Fin d_sae → ℤ :=
  fun s => (∑ r, sae.W_enc s r * x r) + sae.b_enc s

/-- Model of `SAE.encode`: top-k values and indices of the encoder activations. -/
def SAE.encode (sae : SAE d_in d_sae k) (x : Fin d_in → ℤ) :
    (Fin k → ℤ) × (Fin k → Fin d_sae) :=
  let acts := sae.encActs x
  let idx := topkIdx acts k sae.hk
  (fun i => acts (idx i), idx)

/-- Model of `x.scatter_(1, indices, latents)` applied to a zero vector: position
`indices j` receives `latents j` (later writes win, as in the in-place op). -/
def scatterVec {m : ℕ} (indices : Fin k → Fin m) (latents : Fin k → ℤ) : Fin m → ℤ :=
  (List.finRange k).foldl (fun f j => Function.update f (indices j) (latents j)) (fun _ => 0)

/-- Model of `SAE.decode`: scatter the latents into a `d_sae` vector, then
`F.linear(x, W_dec, b_dec)`. -/
def SAE.decode (sae : SAE d_in d_sae k) (latents : Fin k → ℤ)
    (indices : Fin k → Fin d_sae) : Fin d_in → ℤ :=
  let z := scatterVec indices latents
  fun r => (∑ s, sae.W_dec r s * z s) + sae.b_dec r

/-- Model of `SAE.forward`: encode then decode, also returning the top-k indices. -/
def SAE.forward (sae : SAE d_in d_sae k) (x : Fin d_in → ℤ) :
    (Fin d_in → ℤ) × (Fin k → Fin d_sae) :=
  ((sae.decode (sae.encode x).1 (sae.encode x).2), (sae.encode x).2)

/-- The notebook's toy `MLP` module (cell 3); its activation is `nn.ReLU()`. -/
structure MLP (d_resid d_mlp : ℕ) where
  W_in : Fin d_mlp → Fin d_resid → ℤ
  b_in : Fin d_mlp → ℤ
  W_out : Fin d_resid → Fin d_mlp → ℤ
  b_out : Fin d_resid → ℤ

/-- The activation `nn.ReLU()`. -/
def relu (a : ℤ) : ℤ := max a 0

/-- The elementwise derivative of ReLU, as `torch.autograd.grad` computes it
(`0` at nonpositive pre-activations, `1` at positive ones). -/
def reluGrad (a : ℤ) : ℤ := if 0 < a then 1 else 0

/-- Computes `F.linear(x, W_in, b_in)`: the MLP pre-activations. -/
def MLP.pre (mlp : MLP d_resid d_mlp) (x : Fin d_resid → ℤ) : Fin d_mlp → ℤ :=
  fun d => (∑ r, mlp.W_in d r * x r) + mlp.b_in d

/-- Model of `MLP.forward` (without gradients): `W_out @ relu(pre) + b_out`. -/
def MLP.forward (mlp : MLP d_resid d_mlp) (x : Fin d_resid → ℤ) : Fin d_resid → ℤ :=
  fun r => (∑ d, mlp.W_out r d * relu (mlp.pre x d)) + mlp.b_out r

/-- Model of `MLP.forward(x, return_grad_of_act=True)`: the output together with the
elementwise ReLU derivative at the pre-activations. -/
def MLP.forwardWithActGrad (mlp : MLP d_resid d_mlp) (x : Fin d_resid → ℤ) :
    (Fin d_resid → ℤ) × (Fin d_mlp → ℤ) :=
  (mlp.forward x, fun d => reluGrad (mlp.pre x d))

/-- Computes `wd1 = sae.W_dec.T @ mlp.W_in.T`, shape `(d_sae, d_mlp)`. -/
def wd1 (sae : SAE d_resid d_sae k) (mlp : MLP d_resid d_mlp) :
    Fin d_sae → Fin d_mlp → ℤ :=
  fun s d => ∑ r, sae.W_dec r s * mlp.W_in d r

/-- Computes `w2e = mlp.W_out.T @ sae.W_enc.T`, shape `(d_mlp, d_sae)`. -/
def w2e (sae : SAE d_resid d_sae k) (mlp : MLP d_resid d_mlp) :
    Fin d_mlp → Fin d_sae → ℤ :=
  fun d s => ∑ r, mlp.W_out r d * sae.W_enc s r

/-- The naive triple-loop Jacobian of the toy-model notebook:
`jacobian[token_pos, input_k, output_k]
  = (wd1[input_index] * mlp_act_grad[token_pos] * w2e[:, output_index]).sum()`. -/
def get_jacobian_slow (sae : SAE d_resid d_sae k) (mlp : MLP d_resid d_mlp)
    (resid_values : Fin n_tokens → Fin d_resid → ℤ) :
    Fin n_tokens → Fin k → Fin k → ℤ :=
  fun token_pos input_k output_k =>
    let sae_out := (sae.forward (resid_values token_pos)).1
    let topk_indices1 := (sae.forward (resid_values token_pos)).2
    let mlp_act_grad := (mlp.forwardWithActGrad sae_out).2
    let resid_post := (mlp.forwardWithActGrad sae_out).1
    let topk_indices2 := (sae.encode resid_post).2
    ∑ d, wd1 sae mlp (topk_indices1 input_k) d * mlp_act_grad d
        * w2e sae mlp d (topk_indices2 output_k)

/-- The einsum Jacobian of the toy-model notebook:
`einsum(wd1[topk_indices1], mlp_act_grad, w2e[:, topk_indices2],
        "seq_pos k1 d_mlp, seq_pos d_mlp, d_mlp seq_pos k2 -> seq_pos k2 k1")`,
so entry `[token_pos, a, b]` contracts row `topk_indices1 b` of `wd1` with
column `topk_indices2 a` of `w2e`. -/
def get_jacobian_fast (sae : SAE d_resid d_sae k) (mlp : MLP d_resid d_mlp)
    (resid_values : Fin n_tokens → Fin d_resid → ℤ) :
    Fin n_tokens → Fin k → Fin k → ℤ :=
  fun token_pos a b =>
    let sae_out := (sae.forward (resid_values token_pos)).1
    let topk_indices1 := (sae.forward (resid_values token_pos)).2
    let mlp_act_grad := (mlp.forwardWithActGrad sae_out).2
    let resid_post := (mlp.forwardWithActGrad sae_out).1
    let topk_indices2 := (sae.encode resid_post).2
    ∑ d, wd1 sae mlp (topk_indices1 b) d * mlp_act_grad d
        * w2e sae mlp d (topk_indices2 a)

/-- A concrete 2x2 matrix, row major. -/
def mat2 (a b c d : ℤ) : Fin 2 → Fin 2 → ℤ := fun i j =>
  if i = 0 then (if j = 0 then a else b) else (if j = 0 then c else d)

/-- A concrete toy SAE (`d_in = d_sae = k = 2`) used as a test input. -/
def saeEx : SAE 2 2 2 where
  W_enc := mat2 1 0 0 1
  b_enc := fun _ => 0
  W_dec := mat2 1 2 3 4
  b_dec := fun _ => 0
  hk := le_refl 2

/-- A concrete toy MLP (`d_resid = d_mlp = 2`) used as a test input; its
biases make both ReLU pre-activations positive on the test input. -/
def mlpEx : MLP 2 2 where
  W_in := mat2 1 0 0 1
  b_in := fun _ => 1
  W_out := mat2 1 2 0 1
  b_out := fun _ => 0

/-- A concrete single-token batch of residual-stream values. -/
def residEx : Fin 1 → Fin 2 → ℤ := fun _ j => if j = 0 then 1 else 2

/-! ## Definitions: `MLPWithActGrads` (notebook `src/unnamed/part_002`)

`MLPWithActGrads` subclasses the TransformerLens `MLP` (imported as `TL_MLP`)
and overrides `forward`.  The activation function and the value
`torch.autograd.grad` computes for it are modelled abstractly as the fields
`act_fn` and `act_fn_grad` (reproducing autograd itself is a stated non-goal);
`hook_pre`/`hook_post` are identities (no handlers are attached).  Leading
`batch`/`pos` tensor dimensions act elementwise and are modelled explicitly. -/

/-- The TransformerLens `MLP` data: config flags relevant to the overridden
`forward` (`cfg.is_layer_norm_activation()`, presence of `hook_mid`/`ln`),
the weights, the activation with its autograd derivative, and the
`hook_mid`-then-`ln` stage used only in the layer-norm-activation branch. -/
structure TL_MLP (d_model d_mlp : ℕ) where
  actFnIsLayerNorm : Bool
  hookMidPresent : Bool
  lnPresent : Bool
  W_in : Fin d_model → Fin d_mlp → ℤ
  b_in : Fin d_mlp → ℤ
  W_out : Fin d_mlp → Fin d_model → ℤ
  b_out : Fin d_model → ℤ
  act_fn : ℤ → ℤ
  act_fn_grad : ℤ → ℤ
  lnMid : (Fin d_mlp → ℤ) → (Fin d_mlp → ℤ)

/-- Model of `transformer_lens.utilities.addmm.batch_addmm(bias, weight, x)`:
`x @ weight + bias` on the last dimension. -/
def batch_addmm {m n : ℕ} (bias : Fin n → ℤ) (weight : Fin m → Fin n → ℤ)
    (x : Fin m → ℤ) : Fin n → ℤ :=
  fun j => (∑ i, x i * weight i j) + bias j

variable {B P d_model : ℕ}

/-- The guard `cfg.is_layer_norm_activation() and hook_mid is not None and
ln is not None` shared by the original `forward` and the override. -/
def TL_MLP.lnBranch (m : TL_MLP d_model d_mlp) : Bool :=
  m.actFnIsLayerNorm && m.hookMidPresent && m.lnPresent

/-- Modelled from the spec: the unmodified TransformerLens `MLP.forward`
(an external-library dependency, not part of `src/`): pre-activations via
`batch_addmm`, then the activation function — routed through the
`hook_mid`/`ln` stage when the config uses a layer-norm activation — then
the output projection via `batch_addmm`. -/
def TL_MLP.forward (m : TL_MLP d_model d_mlp)
    (x : Fin B → Fin P → Fin d_model → ℤ) : Fin B → Fin P → Fin d_model → ℤ :=
  fun b p =>
    let pre_act := batch_addmm m.b_in m.W_in (x b p)
    let post_act :=
      if m.lnBranch = true then m.lnMid (fun d => m.act_fn (pre_act d))
      else fun d => m.act_fn (pre_act d)
    batch_addmm m.b_out m.W_out post_act

/-- The pre-activations of `MLPWithActGrads.forward`
(`batch_addmm(self.b_in, self.W_in, x)`). -/
def MLPWithActGrads.pre_act (m : TL_MLP d_model d_mlp)
    (x : Fin B → Fin P → Fin d_model → ℤ) : Fin B → Fin P → Fin d_mlp → ℤ :=
  fun b p d => batch_addmm m.b_in m.W_in (x b p) d

/-- Model of `MLPWithActGrads.forward(x, return_act_grads=True)`: raises
`NotImplementedError` in the layer-norm-activation branch, otherwise returns
the MLP output together with the autograd gradient of the activation at the
pre-activations. -/
def MLPWithActGrads.forwardWithGrads (m : TL_MLP d_model d_mlp)
    (x : Fin B → Fin P → Fin d_model → ℤ) :
    Except String ((Fin B → Fin P → Fin d_model → ℤ) × (Fin B → Fin P → Fin d_mlp → ℤ)) :=
  if m.lnBranch = true then .error "NotImplementedError"
  else .ok
    (fun b p => batch_addmm m.b_out m.W_out
        (fun d => m.act_fn (batch_addmm m.b_in m.W_in (x b p) d)),
     fun b p d => m.act_fn_grad (batch_addmm m.b_in m.W_in (x b p) d))

/-- Model of `MLPWithActGrads.forward(x, return_act_grads=False)`: raises
`NotImplementedError` in the layer-norm-activation branch, otherwise returns
just the MLP output. -/
def MLPWithActGrads.forwardNoGrads (m : TL_MLP d_model d_mlp)
    (x : Fin B → Fin P → Fin d_model → ℤ) :
    Except String (Fin B → Fin P → Fin d_model → ℤ) :=
  if m.lnBranch = true then .error "NotImplementedError"
  else .ok (fun b p => batch_addmm m.b_out m.W_out
      (fun d => m.act_fn (batch_addmm m.b_in m.W_in (x b p) d)))

/-- A concrete `TL_MLP` whose config uses a layer-norm activation (with
`hook_mid` and `ln` present). -/
def tlMlpLnEx : TL_MLP 1 1 where
  actFnIsLayerNorm := true
  hookMidPresent := true
  lnPresent := true
  W_in := fun _ _ => 1
  b_in := fun _ => 0
  W_out := fun _ _ => 1
  b_out := fun _ => 0
  act_fn := fun a => max a 0
  act_fn_grad := fun a => if 0 < a then 1 else 0
  lnMid := fun v => v

/-- A concrete `TL_MLP` with an ordinary (non-layer-norm) activation. -/
def tlMlpPlainEx : TL_MLP 1 1 where
  actFnIsLayerNorm := false
  hookMidPresent := false
  lnPresent := false
  W_in := fun _ _ => 2
  b_in := fun _ => 1
  W_out := fun _ _ => 3
  b_out := fun _ => -1
  act_fn := fun a => max a 0
  act_fn_grad := fun a => if 0 < a then 1 else 0
  lnMid := fun v => v

/-- A concrete batch-1, pos-1, `d_model`-1 input tensor. -/
def xEx : Fin 1 → Fin 1 → Fin 1 → ℤ := fun _ _ _ => 5

/-! ## Definitions: the `hpc_utils/extract_args` CLI helper

An executable model of the `argparse` parser declared by `extract_args`
(a mutually exclusive GPU group `--gputype`, `--2080`, `--3090`, `--a100`,
`--80g`; the positional `runner_script`; `-n`/`--name` defaulting to
`"jsae[UNIQUE-ID]"`; `-q`/`--queue` defaulting to `"cnu"`), of
`parse_known_args`, and of the output command the script prints.

`argparse` details modelled: a token is treated as an option exactly when it
starts with `-` and is not the bare `-`; long options also accept the
`--opt=value` form; a value-taking option consumes the following token
unless that token looks like an option, in which case parsing fails with
"expected one argument"; supplying a second distinct member of the mutually
exclusive group is an error at the moment it is seen; unrecognized
option-like tokens and surplus positionals go to `remaining_args` in order;
the missing required positional is an error after scanning.  (Unambiguous
option abbreviations and joined short-option values, which `argparse` also
accepts, are not modelled.)  `random.randint(1000, 9999)` is modelled by a
parameter `r` carrying the sampled value. -/

/-- The member of the mutually exclusive GPU group that was seen. -/
inductive GpuOpt where
  | gputype
  | g2080
  | g3090
  | a100
  | g80g
deriving DecidableEq

/-- The parsed argument namespace of `extract_args` (field `_2080` models
`dest="_2080"`, and so on). -/
structure Args where
  gputype : Option String
  _2080 : Bool
  _3090 : Bool
  a100 : Bool
  _80g : Bool
  name : String
  queue : String
  runner_script : Option String
deriving DecidableEq

/-- The namespace before any argument is consumed (all defaults). -/
def initArgs : Args :=
  ⟨none, false, false, false, false, "jsae[UNIQUE-ID]", "cnu", none⟩

/-- Does the token look like an option (starts with `-`)? -/
def dashArg (s : String) : Bool :=
  match s.data with
  | [] => false
  | c :: _ => c = '-'

/-- Split `--opt=value` at the first `=` (accumulator of chars seen so far). -/
def breakOnEqAux (acc : List Char) : List Char → Option (String × String)
  | [] => none
  | c :: cs =>
    if c = '=' then some (String.mk acc.reverse, String.mk cs)
    else breakOnEqAux (c :: acc) cs

/-- Split a token of the form `base=value` into `(base, value)`. -/
def breakOnEq (s : String) : Option (String × String) :=
  breakOnEqAux [] s.data

/-- Mutual-exclusion check: `o` conflicts with a previously seen distinct
member of the GPU group. -/
def gpuConflict (seen : Option GpuOpt) (o : GpuOpt) : Bool :=
  match seen with
  | none => false
  | some o' => decide (o' ≠ o)

/-- One left-to-right pass of `parse_known_args` over the tokens.
`args` is the namespace so far, `seen` the GPU-group member already seen,
`rem` the unrecognized tokens so far (in order). -/
def scan (args : Args) (seen : Option GpuOpt) (rem : List String) :
    List String → Except String (Args × List String)
  | [] => .ok (args, rem)
  | t :: rest =>
    if dashArg t = true ∧ t ≠ "-" then
      if t = "--gputype" then
        match rest with
        | [] => .error "argument --gputype: expected one argument"
        | v :: rest2 =>
          if dashArg v = true then .error "argument --gputype: expected one argument"
          else if gpuConflict seen .gputype = true then
            .error "argument --gputype: not allowed with another GPU argument"
          else scan { args with gputype := some v } (some .gputype) rem rest2
      else if t = "-n" ∨ t = "--name" then
        match rest with
        | [] => .error "argument -n/--name: expected one argument"
        | v :: rest2 =>
          if dashArg v = true then .error "argument -n/--name: expected one argument"
          else scan { args with name := v } seen rem rest2
      else if t = "-q" ∨ t = "--queue" then
        match rest with
        | [] => .error "argument -q/--queue: expected one argument"
        | v :: rest2 =>
          if dashArg v = true then .error "argument -q/--queue: expected one argument"
          else scan { args with queue := v } seen rem rest2
      else if t = "--2080" then
        if gpuConflict seen .g2080 = true then
          .error "argument --2080: not allowed with another GPU argument"
        else scan { args with _2080 := true } (some .g2080) rem rest
      else if t = "--3090" then
        if gpuConflict seen .g3090 = true then
          .error "argument --3090: not allowed with another GPU argument"
        else scan { args with _3090 := true } (some .g3090) rem rest
      else if t = "--a100" then
        if gpuConflict seen .a100 = true then
          .error "argument --a100: not allowed with another GPU argument"
        else scan { args with a100 := true } (some .a100) rem rest
      else if t = "--80g" then
        if gpuConflict seen .g80g = true then
          .error "argument --80g: not allowed with another GPU argument"
        else scan { args with _80g := true } (some .g80g) rem rest
      else
        match breakOnEq t with
        | some (base, v) =>
          if base = "--gputype" then
            if gpuConflict seen .gputype = true then
              .error "argument --gputype: not allowed with another GPU argument"
            else scan { args with gputype := some v } (some .gputype) rem rest
          else if base = "--name" then scan { args with name := v } seen rem rest
          else if base = "--queue" then scan { args with queue := v } seen rem rest
          else scan args seen (rem ++ [t]) rest
        | none => scan args seen (rem ++ [t]) rest
    else
      match args.runner_script with
      | none => scan { args with runner_script := some t } seen rem rest
      | some _ => scan args seen (rem ++ [t]) rest

/-- Model of `parser.parse_known_args()` followed by the required-positional check. -/
def parse_known_args (tokens : List String) : Except String (Args × List String) :=
  match scan initArgs none [] tokens with
  | .error e => .error e
  | .ok (args, rem) =>
    match args.runner_script with
    | none => .error "the following arguments are required: runner_script"
    | some _ => .ok (args, rem)

/-- Python truthiness of `args.gputype` (`None` and `""` are falsy). -/
def truthyGputype (o : Option String) : Bool :=
  match o with
  | none => false
  | some s => if s = "" then false else true

/-- The `elif` chain of the GPU-flag translation. -/
def gpu_flag_rest (args : Args) : String :=
  if args._2080 = true then "--gputype rtx_2080"
  else if args._3090 = true then "--gputype rtx_3090"
  else if args.a100 = true then "--gputype A100"
  else if args._80g = true then "--gputype A100 --exclude_40G_A100"
  else ""

/-- The translated GPU flag field (`if args.gputype: ... elif ... else ""`). -/
def gpu_flag (args : Args) : String :=
  if truthyGputype args.gputype = true then "--gputype " ++ (args.gputype.getD "")
  else gpu_flag_rest args

/-- The job-name resolution: the sentinel default is replaced by
`f"jsae{random.randint(1000, 9999)}"`, whose sampled value is `r`. -/
def resolvedName (name : String) (r : ℕ) : String :=
  if name = "jsae[UNIQUE-ID]" then "jsae" ++ toString r else name

/-- The `output_args` list the script prints. -/
def output_args (args : Args) (remaining : List String) (r : ℕ) : List String :=
  [gpu_flag args,
   "-n " ++ resolvedName args.name r,
   "-q " ++ args.queue,
   "--cmd python " ++ (args.runner_script.getD "")] ++ remaining

/-- Python's `" ".join(l)`. -/
def joinSpace (l : List String) : String :=
  match l with
  | [] => ""
  | a :: rest => rest.foldl (fun acc s => acc ++ " " ++ s) a

/-- The whole `extract_args` script: parse, then print the joined command
(`r` is the value sampled by `random.randint(1000, 9999)`). -/
def extract_args_main (tokens : List String) (r : ℕ) : Except String String :=
  match parse_known_args tokens with
  | .error e => .error e
  | .ok (args, rem) => .ok (joinSpace (output_args args rem r))

/-- The exact option strings of the mutually exclusive GPU group. -/
def gpuToks : List String := ["--gputype", "--2080", "--3090", "--a100", "--80g"]

/-- Which group member an exact GPU option string denotes. -/
def gpuOptOf (t : String) : GpuOpt :=
  if t = "--2080" then .g2080
  else if t = "--3090" then .g3090
  else if t = "--a100" then .a100
  else if t = "--80g" then .g80g
  else .gputype

/-- Is the token a `base=value` form whose base is a recognized long option? -/
def eqFormRecognized (x : String) : Bool :=
  match breakOnEq x with
  | some (b, _) => decide (b ∈ (["--gputype", "--name", "--queue"] : List String))
  | none => false

/-- A token the scanner always passes through to `remaining_args`:
option-like, not a recognized option, not a recognized `=`-form. -/
def passThru (x : String) : Prop :=
  dashArg x = true ∧ x ≠ "-"
    ∧ x ∉ (["--gputype", "-n", "--name", "-q", "--queue",
            "--2080", "--3090", "--a100", "--80g"] : List String)
    ∧ eqFormRecognized x = false

/-- Is the token a `--name=...` form? -/
def nameEqForm (x : String) : Bool :=
  match breakOnEq x with
  | some (b, _) => decide (b = "--name")
  | none => false

/-- Does the token set the job name (`-n`, `--name` or `--name=...`)? -/
def nameTok (x : String) : Prop :=
  x = "-n" ∨ x = "--name" ∨ nameEqForm x = true

instance nameTok.decidable (x : String) : Decidable (nameTok x) := by
  unfold nameTok
  exact inferInstance

/-- One step of `scan` from token `t`: the relation between the states before
and after, with bookkeeping about the remaining-args accumulator, the seen
GPU-group member, and the job name. -/
def ScanStep (args : Args) (seen : Option GpuOpt) (rem0 : List String)
    (t : String) (rest : List String) (args' : Args) (seen' : Option GpuOpt)
    (rem' : List String) (rest' : List String) : Prop :=
  scan args seen rem0 (t :: rest) = scan args' seen' rem' rest'
  ∧ ((rem' = rem0 ∧ (rest' = rest ∨ ∃ v, rest = v :: rest' ∧ dashArg v = false))
     ∨ (rem' = rem0 ++ [t] ∧ rest' = rest ∧ args' = args ∧ seen' = seen))
  ∧ (seen' = seen
     ∨ (seen' = some (gpuOptOf t) ∧ gpuConflict seen (gpuOptOf t) = false))
  ∧ (t ∈ gpuToks → seen' = some (gpuOptOf t))
  ∧ (¬ nameTok t → args'.name = args.name)

/-! ## Definitions: the BluePebble sync shell script

The zsh script bundled with `extract_args`: it prompts for confirmation,
exits with status 1 unless the response is `y` or empty, and otherwise
invokes `rsync -av` on the `hpc_utils`, `jacobian_saes` and `runners`
directories with `--exclude="*.pyc" --exclude=".DS_Store"`. -/

/-- One recorded `rsync` invocation. -/
structure RsyncCall where
  excludes : List String
  sources : List String
  dest : String
deriving DecidableEq

/-- The single `rsync` call the script makes, given `$PARENT_DIR`. -/
def rsyncCallOf (parentDir : String) : RsyncCall :=
  { excludes := ["*.pyc", ".DS_Store"],
    sources := [parentDir ++ "/hpc_utils", parentDir ++ "/jacobian_saes",
                parentDir ++ "/runners"],
    dest := "bp:~/work/jacobian_saes" }

/-- Run the sync script with the given prompt response: the exit status and
the list of `rsync` calls performed. -/
def sync_script_run (parentDir response : String) : ℕ × List RsyncCall :=
  if response ≠ "y" ∧ response ≠ "" then (1, [])
  else (0, [rsyncCallOf parentDir])

/-! ## Definitions: the wandb artifact bulk-download script
(`src/unnamed/part_000`)

The script iterates the hard-coded `type_names` list, and for each type
downloads every artifact of every collection of that type.  A project is
modelled as its artifact types, each with its collections of artifacts
(artifacts are identified by name).  A download either succeeds or raises,
modelled by the predicate `ok`; an exception propagates and stops the
script. -/

/-- One artifact type of a wandb project with its collections. -/
structure ArtifactTypeData where
  type_name : String
  collections : List (List String)
deriving DecidableEq

/-- A wandb project: its artifact types. -/
abbrev WandbProject : Type := List ArtifactTypeData

/-- Model of `api.artifact_type(type_name, project).collections()`. -/
def collectionsOf (p : WandbProject) (tn : String) : List (List String) :=
  match p.find? (fun a => a.type_name = tn) with
  | some a => a.collections
  | none => []

/-- The hard-coded list of artifact types the script iterates. -/
def type_names : List String := ["model", "log_feature_sparsity", "wandb-history"]

/-- The sequence of artifacts the script downloads, in iteration order
(assuming every download succeeds). -/
def download_all (p : WandbProject) : List String :=
  (type_names.map (fun tn => (collectionsOf p tn).flatten)).flatten

/-- Every artifact stored in the project, whatever its type. -/
def allProjectArtifacts (p : WandbProject) : List String :=
  (p.map (fun a => a.collections.flatten)).flatten

/-- Run a sequence of downloads where `ok a = false` means `a.download()`
raises: returns the artifacts successfully downloaded, the artifacts
attempted, and whether the final "Downloaded all artifacts" message was
printed. -/
def downloadRun (ok : String → Bool) : List String → List String × List String × Bool
  | [] => ([], [], true)
  | a :: rest =>
    if ok a = true then
      let r := downloadRun ok rest
      (a :: r.1, a :: r.2.1, r.2.2)
    else ([], [a], false)

/-- The whole download script run against a project. -/
def download_script_run (p : WandbProject) (ok : String → Bool) :
    List String × List String × Bool :=
  downloadRun ok (download_all p)

/-- A concrete project holding an artifact of a type outside `type_names`. -/
def projEx : WandbProject :=
  [⟨"model", [["model-a", "model-b"]]⟩, ⟨"dataset", [["dataset-a"]]⟩]

/-- A concrete perturbed latent vector (the first active latent of
`saeEx.encode (residEx 0)` bumped from `2` to `3`); it keeps the ReLU
activation pattern of `mlpEx` unchanged. -/
def zpEx : Fin 2 → ℤ := fun i => if i = 0 then 3 else 1

/-! ## Theorems: sorting / top-k -/

theorem length_insertDesc {n : ℕ} (v : Fin n → ℤ) (a : Fin n) (l : List (Fin n)) :
    (insertDesc v a l).length = l.length + 1 := by
  induction l with
  | nil => rfl
  | cons b l ih =>
    simp only [insertDesc]
    split
    · simp
    · simp [ih]

theorem length_sortDesc {n : ℕ} (v : Fin n → ℤ) (l : List (Fin n)) :
    (sortDesc v l).length = l.length := by
  induction l with
  | nil => rfl
  | cons b l ih =>
    have h : sortDesc v (b :: l) = insertDesc v b (sortDesc v l) := rfl
    rw [h, length_insertDesc, ih, List.length_cons]

theorem insertDesc_perm {n : ℕ} (v : Fin n → ℤ) (a : Fin n) (l : List (Fin n)) :
    (insertDesc v a l).Perm (a :: l) := by
  induction l with
  | nil => exact List.Perm.refl _
  | cons b l ih =>
    simp only [insertDesc]
    split
    · exact List.Perm.refl _
    · exact ((ih.cons b).trans (List.Perm.swap a b l))

theorem sortDesc_perm {n : ℕ} (v : Fin n → ℤ) (l : List (Fin n)) :
    (sortDesc v l).Perm l := by
  induction l with
  | nil => exact List.Perm.refl _
  | cons b l ih =>
    have h : sortDesc v (b :: l) = insertDesc v b (sortDesc v l) := rfl
    rw [h]
    exact (insertDesc_perm v b (sortDesc v l)).trans (ih.cons b)

theorem sortDesc_finRange_nodup {n : ℕ} (v : Fin n → ℤ) :
    (sortDesc v (List.finRange n)).Nodup :=
  ((sortDesc_perm v (List.finRange n)).nodup_iff).mpr (List.nodup_finRange n)

theorem topkIdx_eq_get {n : ℕ} (v : Fin n → ℤ) (k : ℕ) (hk : k ≤ n) (i : Fin k) :
    topkIdx v k hk i = (sortDesc v (List.finRange n)).get
      ⟨i.val, by rw [length_sortDesc, List.length_finRange]; exact lt_of_lt_of_le i.isLt hk⟩ := by
  unfold topkIdx
  rw [List.getD_eq_getElem]
  rfl

theorem topkIdx_injective {n : ℕ} (v : Fin n → ℤ) (k : ℕ) (hk : k ≤ n) :
    Function.Injective (topkIdx v k hk) := by
  intro i j h
  rw [topkIdx_eq_get, topkIdx_eq_get] at h
  have h2 := List.nodup_iff_injective_get.mp (sortDesc_finRange_nodup v) h
  have h3 : (i : ℕ) = (j : ℕ) := Fin.mk.inj h2
  exact Fin.ext h3

/-! ## Theorems: scatter and local linearity of the sandwich map -/

theorem foldl_update_of_not_mem {m : ℕ} (ind : Fin k → Fin m) (lat : Fin k → ℤ)
    (l : List (Fin k)) :
    ∀ (f0 : Fin m → ℤ) (s : Fin m), (∀ j ∈ l, ind j ≠ s) →
      l.foldl (fun f j => Function.update f (ind j) (lat j)) f0 s = f0 s := by
  induction l with
  | nil => intro f0 s _; rfl
  | cons j l ih =>
    intro f0 s h
    have h1 : ind j ≠ s := h j (List.mem_cons_self j l)
    rw [List.foldl_cons, ih _ s (fun j' hj' => h j' (List.mem_cons_of_mem _ hj')),
      Function.update_noteq (Ne.symm h1)]

theorem foldl_update_of_mem {m : ℕ} (ind : Fin k → Fin m) (lat : Fin k → ℤ)
    (l : List (Fin k)) :
    ∀ (f0 : Fin m → ℤ) (s : Fin m) (j0 : Fin k), (l.map ind).Nodup → j0 ∈ l → ind j0 = s →
      l.foldl (fun f j => Function.update f (ind j) (lat j)) f0 s = lat j0 := by
  induction l with
  | nil => intro f0 s j0 _ hmem _; exact absurd hmem (List.not_mem_nil j0)
  | cons j l ih =>
    intro f0 s j0 hnd hmem heq
    rw [List.map_cons, List.nodup_cons] at hnd
    rw [List.foldl_cons]
    rcases List.mem_cons.mp hmem with hj | hmem'
    · subst hj
      have hnotin : ∀ j' ∈ l, ind j' ≠ s := by
        intro j' hj' hcon
        exact hnd.1 (heq ▸ hcon ▸ List.mem_map_of_mem ind hj')
      rw [foldl_update_of_not_mem ind lat l _ s hnotin, ← heq, Function.update_same]
    · exact ih _ s j0 hnd.2 hmem' heq

theorem scatterVec_apply {m : ℕ} (ind : Fin k → Fin m) (lat : Fin k → ℤ)
    (hinj : Function.Injective ind) (s : Fin m) :
    scatterVec ind lat s = ∑ j, if ind j = s then lat j else 0 := by
  by_cases hex : ∃ j0, ind j0 = s
  · obtain ⟨j0, hj0⟩ := hex
    have hnd : ((List.finRange k).map ind).Nodup :=
      List.Nodup.map hinj (List.nodup_finRange k)
    rw [scatterVec,
      foldl_update_of_mem ind lat (List.finRange k) _ s j0 hnd (List.mem_finRange j0) hj0,
      ← hj0]
    have hrw : ∀ j : Fin k, (if ind j = ind j0 then lat j else 0)
        = (if j = j0 then lat j else 0) := by
      intro j
      by_cases hc : j = j0
      · simp [hc]
      · rw [if_neg (fun hcc => hc (hinj hcc)), if_neg hc]
    rw [Finset.sum_congr rfl (fun j _ => hrw j), Finset.sum_ite_eq' Finset.univ j0 lat]
    simp
  · push_neg at hex
    rw [scatterVec, foldl_update_of_not_mem ind lat (List.finRange k) _ s (fun j _ => hex j)]
    exact (Finset.sum_eq_zero (fun j _ => if_neg (hex j))).symm

theorem relu_sub (a b : ℤ) (h : 0 < a ↔ 0 < b) :
    relu a - relu b = reluGrad b * (a - b) := by
  unfold relu reluGrad
  by_cases hb : 0 < b
  · rw [if_pos hb, max_eq_left (h.mpr hb).le, max_eq_left hb.le, one_mul]
  · have ha : ¬ 0 < a := fun hh => hb (h.mp hh)
    rw [if_neg hb, max_eq_right (not_lt.mp ha), max_eq_right (not_lt.mp hb), zero_mul,
      sub_self]

theorem decode_sub (sae : SAE d_in d_sae k) (ind : Fin k → Fin d_sae)
    (hinj : Function.Injective ind) (z z' : Fin k → ℤ) (r : Fin d_in) :
    sae.decode z' ind r - sae.decode z ind r = ∑ j, (z' j - z j) * sae.W_dec r (ind j) := by
  unfold SAE.decode
  rw [add_sub_add_right_eq_sub, ← Finset.sum_sub_distrib]
  have h1 : ∀ s, sae.W_dec r s * scatterVec ind z' s - sae.W_dec r s * scatterVec ind z s
      = ∑ j, if ind j = s then sae.W_dec r s * (z' j - z j) else 0 := by
    intro s
    rw [scatterVec_apply ind z' hinj s, scatterVec_apply ind z hinj s, Finset.mul_sum,
      Finset.mul_sum, ← Finset.sum_sub_distrib]
    refine Finset.sum_congr rfl (fun j _ => ?_)
    by_cases hc : ind j = s
    · simp [hc, mul_sub]
    · simp [hc]
  rw [Finset.sum_congr rfl (fun s _ => h1 s), Finset.sum_comm]
  refine Finset.sum_congr rfl (fun j _ => ?_)
  rw [Finset.sum_ite_eq Finset.univ (ind j) (fun s => sae.W_dec r s * (z' j - z j))]
  simp [mul_comm]

theorem pre_decode_sub (sae : SAE d_resid d_sae k) (mlp : MLP d_resid d_mlp)
    (ind : Fin k → Fin d_sae) (hinj : Function.Injective ind) (z z' : Fin k → ℤ)
    (d : Fin d_mlp) :
    mlp.pre (sae.decode z' ind) d - mlp.pre (sae.decode z ind) d
      = ∑ j, (z' j - z j) * wd1 sae mlp (ind j) d := by
  unfold MLP.pre
  rw [add_sub_add_right_eq_sub, ← Finset.sum_sub_distrib]
  have h1 : ∀ r, mlp.W_in d r * sae.decode z' ind r - mlp.W_in d r * sae.decode z ind r
      = mlp.W_in d r * ∑ j, (z' j - z j) * sae.W_dec r (ind j) := by
    intro r
    rw [← mul_sub, decode_sub sae ind hinj z z' r]
  rw [Finset.sum_congr rfl (fun r _ => h1 r)]
  simp only [Finset.mul_sum]
  rw [Finset.sum_comm]
  refine Finset.sum_congr rfl (fun j _ => ?_)
  rw [wd1, Finset.mul_sum]
  refine Finset.sum_congr rfl (fun r _ => by ring)

theorem mlp_forward_sub (mlp : MLP d_resid d_mlp) (A B : Fin d_resid → ℤ)
    (hsign : ∀ d, 0 < mlp.pre A d ↔ 0 < mlp.pre B d) (r : Fin d_resid) :
    mlp.forward A r - mlp.forward B r
      = ∑ d, mlp.W_out r d * (reluGrad (mlp.pre B d) * (mlp.pre A d - mlp.pre B d)) := by
  unfold MLP.forward
  rw [add_sub_add_right_eq_sub, ← Finset.sum_sub_distrib]
  refine Finset.sum_congr rfl (fun d _ => ?_)
  rw [← mul_sub, relu_sub _ _ (hsign d)]

theorem encActs_sub (sae : SAE d_in d_sae k) (X Y : Fin d_in → ℤ) (s : Fin d_sae) :
    sae.encActs Y s - sae.encActs X s = ∑ r, sae.W_enc s r * (Y r - X r) := by
  unfold SAE.encActs
  rw [add_sub_add_right_eq_sub, ← Finset.sum_sub_distrib]
  exact Finset.sum_congr rfl (fun r _ => (mul_sub _ _ _).symm)

/-- The einsum Jacobian is, entry for entry, the `(input, output) ↦
(output, input)` transpose of the triple-loop Jacobian (this holds for every
input; it is the source of the discrepancy recorded for claim C1). -/
theorem get_jacobian_fast_eq_slow_transpose (sae : SAE d_resid d_sae k)
    (mlp : MLP d_resid d_mlp) (resid_values : Fin n_tokens → Fin d_resid → ℤ)
    (t : Fin n_tokens) (a b : Fin k) :
    get_jacobian_fast sae mlp resid_values t a b
      = get_jacobian_slow sae mlp resid_values t b a := rfl

/-- C1 (code_bug): on a concrete SAE, MLP and input batch,
`get_jacobian_fast` is NOT entrywise equal to `get_jacobian_slow` — it
returns the tensor with the two `k` axes transposed, so the notebook's own
`assert torch.allclose(jacobian1, jacobian2, ...)` fails on generic data. -/
theorem get_jacobian_fast_ne_slow_on_concrete_input :
    get_jacobian_fast saeEx mlpEx residEx ≠ get_jacobian_slow saeEx mlpEx residEx
    ∧ (∀ t a b, get_jacobian_fast saeEx mlpEx residEx t a b
        = get_jacobian_slow saeEx mlpEx residEx t b a) := by
  constructor
  · decide
  · decide

/-- Swap the outermost and innermost of three nested finite sums. -/
theorem triple_sum_swap {β : Type} [AddCommMonoid β] {n1 n2 n3 : ℕ}
    (f : Fin n1 → Fin n2 → Fin n3 → β) :
    (∑ a, ∑ b, ∑ c, f a b c) = ∑ c, ∑ b, ∑ a, f a b c := by
  have h1 : ∀ a : Fin n1, (∑ b, ∑ c, f a b c) = ∑ c, ∑ b, f a b c :=
    fun a => Finset.sum_comm
  rw [Finset.sum_congr rfl (fun a _ => h1 a), Finset.sum_comm]
  have h2 : ∀ c : Fin n3, (∑ a, ∑ b, f a b c) = ∑ b, ∑ a, f a b c :=
    fun c => Finset.sum_comm
  exact Finset.sum_congr rfl (fun c _ => h2 c)

/-- C2 (confirmed): for any token position, if the ReLU activation
pattern of the MLP is unchanged between the input's decoded latents and a
perturbed latent vector `z'` (the local-constancy precondition; the top-k
index selections are held at the input's values, and the top-k indices are
pairwise distinct by construction), then the change of the composed
decode-then-MLP-then-encode map, read off at the `k` active output features,
is exactly the linear map given by the `get_jacobian_fast` entries: the
einsum contraction is the matrix of partial derivatives of the composed map,
`[output, input]`-indexed, restricted to the active features. -/
theorem get_jacobian_fast_is_partial_derivative_matrix
    (sae : SAE d_resid d_sae k) (mlp : MLP d_resid d_mlp)
    (resid_values : Fin n_tokens → Fin d_resid → ℤ) (t : Fin n_tokens) (z' : Fin k → ℤ)
    (hsign : ∀ d, 0 < mlp.pre (sae.decode z' (sae.encode (resid_values t)).2) d ↔
                  0 < mlp.pre ((sae.forward (resid_values t)).1) d)
    (o : Fin k) :
    sae.encActs (mlp.forward (sae.decode z' (sae.encode (resid_values t)).2))
        ((sae.encode ((mlp.forwardWithActGrad ((sae.forward (resid_values t)).1)).1)).2 o)
      - sae.encActs (mlp.forward ((sae.forward (resid_values t)).1))
        ((sae.encode ((mlp.forwardWithActGrad ((sae.forward (resid_values t)).1)).1)).2 o)
      = ∑ i, get_jacobian_fast sae mlp resid_values t o i
          * (z' i - (sae.encode (resid_values t)).1 i) := by
  have hinj : Function.Injective ((sae.encode (resid_values t)).2) :=
    topkIdx_injective (sae.encActs (resid_values t)) k sae.hk
  set idx1 := (sae.encode (resid_values t)).2 with hidx1
  set vals := (sae.encode (resid_values t)).1 with hvals
  set s0 := ((sae.encode ((mlp.forwardWithActGrad ((sae.forward (resid_values t)).1)).1)).2 o)
    with hs0
  have hB : (sae.forward (resid_values t)).1 = sae.decode vals idx1 := rfl
  set A := sae.decode z' idx1 with hA
  set B := sae.decode vals idx1 with hBdef
  rw [hB]
  have hsign' : ∀ d, 0 < mlp.pre A d ↔ 0 < mlp.pre B d := by
    intro d; exact hsign d
  have hfast : ∀ i, get_jacobian_fast sae mlp resid_values t o i
      = ∑ d, wd1 sae mlp (idx1 i) d * reluGrad (mlp.pre B d) * w2e sae mlp d s0 :=
    fun i => rfl
  simp only [hfast]
  rw [encActs_sub sae (mlp.forward B) (mlp.forward A) s0]
  simp only [mlp_forward_sub mlp A B hsign']
  simp only [pre_decode_sub sae mlp idx1 hinj vals z']
  simp only [w2e, Finset.mul_sum, Finset.sum_mul]
  rw [triple_sum_swap]
  refine Finset.sum_congr rfl (fun i _ => ?_)
  refine Finset.sum_congr rfl (fun d _ => ?_)
  refine Finset.sum_congr rfl (fun r _ => ?_)
  ring

/-- Witness for C2: the local-constancy hypothesis holds for the concrete
perturbation `zpEx` of the concrete instance, and the conclusion follows by
the theorem. -/
theorem get_jacobian_fast_is_partial_derivative_matrix_witness :
    (∀ d, 0 < mlpEx.pre (saeEx.decode zpEx (saeEx.encode (residEx 0)).2) d ↔
          0 < mlpEx.pre ((saeEx.forward (residEx 0)).1) d)
    ∧ (saeEx.encActs (mlpEx.forward (saeEx.decode zpEx (saeEx.encode (residEx 0)).2))
        ((saeEx.encode ((mlpEx.forwardWithActGrad ((saeEx.forward (residEx 0)).1)).1)).2 0)
      - saeEx.encActs (mlpEx.forward ((saeEx.forward (residEx 0)).1))
        ((saeEx.encode ((mlpEx.forwardWithActGrad ((saeEx.forward (residEx 0)).1)).1)).2 0)
      = ∑ i, get_jacobian_fast saeEx mlpEx residEx 0 0 i
          * (zpEx i - (saeEx.encode (residEx 0)).1 i)) :=
  ⟨by decide,
   get_jacobian_fast_is_partial_derivative_matrix saeEx mlpEx residEx 0 zpEx (by decide) 0⟩

/-! ## Theorems: `MLPWithActGrads` -/

/-- Counterexample for C10: when the config uses a layer-norm activation
(with `hook_mid` and `ln` present), `MLPWithActGrads.forward` with
`return_act_grads=True` raises `NotImplementedError` instead of returning the
pair the claim promises. -/
theorem mlp_with_act_grads_ln_counterexample :
    MLPWithActGrads.forwardWithGrads (B := 1) (P := 1) tlMlpLnEx xEx
        = .error "NotImplementedError"
    ∧ MLPWithActGrads.forwardWithGrads (B := 1) (P := 1) tlMlpLnEx xEx
        ≠ .ok (TL_MLP.forward tlMlpLnEx xEx,
               fun b p d => tlMlpLnEx.act_fn_grad (MLPWithActGrads.pre_act tlMlpLnEx xEx b p d)) := by
  refine ⟨rfl, ?_⟩
  intro h
  have h0 : MLPWithActGrads.forwardWithGrads (B := 1) (P := 1) tlMlpLnEx xEx
      = Except.error "NotImplementedError" := rfl
  rw [h0] at h
  exact Except.noConfusion h

/-- C10 (corrected): provided the config does not take the layer-norm
activation branch, `MLPWithActGrads.forward` with `return_act_grads=True`
returns the unmodified TransformerLens MLP output together with the
elementwise activation-function derivative at the pre-activations, and with
`return_act_grads=False` returns exactly the unmodified output; in the
layer-norm-activation branch it instead raises `NotImplementedError`. -/
theorem mlp_with_act_grads_matches_original {d_mlp : ℕ} (m : TL_MLP d_model d_mlp)
    (x : Fin B → Fin P → Fin d_model → ℤ) (h : m.lnBranch = false) :
    MLPWithActGrads.forwardWithGrads m x
        = .ok (TL_MLP.forward m x,
               fun b p d => m.act_fn_grad (MLPWithActGrads.pre_act m x b p d))
    ∧ MLPWithActGrads.forwardNoGrads m x = .ok (TL_MLP.forward m x) := by
  have hfwd : TL_MLP.forward m x = fun b p =>
      batch_addmm m.b_out m.W_out (fun d => m.act_fn (batch_addmm m.b_in m.W_in (x b p) d)) := by
    funext b p
    simp [TL_MLP.forward, h]
  constructor
  · simp [MLPWithActGrads.forwardWithGrads, MLPWithActGrads.pre_act, h, hfwd]
  · simp [MLPWithActGrads.forwardNoGrads, h, hfwd]

/-- Witness for C10: the non-layer-norm hypothesis holds for the concrete
plain MLP, and both equivalences follow by the theorem. -/
theorem mlp_with_act_grads_matches_original_witness :
    tlMlpPlainEx.lnBranch = false
    ∧ (MLPWithActGrads.forwardWithGrads (B := 1) (P := 1) tlMlpPlainEx xEx
        = .ok (TL_MLP.forward tlMlpPlainEx xEx,
               fun b p d => tlMlpPlainEx.act_fn_grad (MLPWithActGrads.pre_act tlMlpPlainEx xEx b p d))
      ∧ MLPWithActGrads.forwardNoGrads (B := 1) (P := 1) tlMlpPlainEx xEx
        = .ok (TL_MLP.forward tlMlpPlainEx xEx)) :=
  ⟨by decide, mlp_with_act_grads_matches_original tlMlpPlainEx xEx (by decide)⟩

theorem scan_nil (args : Args) (seen : Option GpuOpt) (rem : List String) :
    scan args seen rem [] = .ok (args, rem) := rfl

theorem gpuToks_dash : ∀ g ∈ gpuToks, dashArg g = true ∧ g ≠ "-" := by decide

theorem gpuOptOf_injOn :
    ∀ g1 ∈ gpuToks, ∀ g2 ∈ gpuToks, g1 ≠ g2 → gpuOptOf g1 ≠ gpuOptOf g2 := by decide

/-- One-step characterization of `scan` on a nonempty token list: it either
errors, or takes a `ScanStep` to a state on a shorter token list. -/
theorem scan_cons_spec (args : Args) (seen : Option GpuOpt) (rem0 : List String)
    (t : String) (rest : List String) :
    (∃ e, scan args seen rem0 (t :: rest) = .error e)
    ∨ ∃ args' seen' rem' rest', ScanStep args seen rem0 t rest args' seen' rem' rest' := by
  unfold ScanStep
  by_cases h1 : dashArg t = true ∧ t ≠ "-"
  · by_cases h2 : t = "--gputype"
    · -- value-taking --gputype
      cases rest with
      | nil => exact Or.inl ⟨"argument --gputype: expected one argument", by rw [scan.eq_def]; simp +decide [h1, h2]⟩
      | cons v rest2 =>
        by_cases hdv : dashArg v = true
        · exact Or.inl ⟨"argument --gputype: expected one argument", by rw [scan.eq_def]; simp +decide [h1, h2, hdv]⟩
        · by_cases hcf : gpuConflict seen .gputype = true
          · exact Or.inl ⟨"argument --gputype: not allowed with another GPU argument", by rw [scan.eq_def]; simp +decide [h1, h2, hdv, hcf]⟩
          · refine Or.inr ⟨{ args with gputype := some v }, some .gputype, rem0, rest2,
              by rw [scan.eq_def]; simp +decide [h1, h2, hdv, hcf], ?_, ?_, ?_, ?_⟩
            · exact Or.inl ⟨rfl, Or.inr ⟨v, rfl, by simpa using hdv⟩⟩
            · subst h2
              exact Or.inr ⟨by decide, by simpa using hcf⟩
            · intro _; subst h2; decide
            · intro _; rfl
    · by_cases h3 : t = "-n" ∨ t = "--name"
      · cases rest with
        | nil => exact Or.inl ⟨"argument -n/--name: expected one argument", by rw [scan.eq_def]; simp +decide [h1, h2, h3]⟩
        | cons v rest2 =>
          by_cases hdv : dashArg v = true
          · exact Or.inl ⟨"argument -n/--name: expected one argument", by rw [scan.eq_def]; simp +decide [h1, h2, h3, hdv]⟩
          · refine Or.inr ⟨{ args with name := v }, seen, rem0, rest2,
              by rw [scan.eq_def]; simp +decide [h1, h2, h3, hdv], ?_, Or.inl rfl, ?_, ?_⟩
            · exact Or.inl ⟨rfl, Or.inr ⟨v, rfl, by simpa using hdv⟩⟩
            · intro hg
              rcases h3 with rfl | rfl <;> simp [gpuToks] at hg
            · intro hnt
              rcases h3 with rfl | rfl
              · exact absurd (Or.inl rfl) hnt
              · exact absurd (Or.inr (Or.inl rfl)) hnt
      · by_cases h4 : t = "-q" ∨ t = "--queue"
        · cases rest with
          | nil => exact Or.inl ⟨"argument -q/--queue: expected one argument", by rw [scan.eq_def]; simp +decide [h1, h2, h3, h4]⟩
          | cons v rest2 =>
            by_cases hdv : dashArg v = true
            · exact Or.inl ⟨"argument -q/--queue: expected one argument", by rw [scan.eq_def]; simp +decide [h1, h2, h3, h4, hdv]⟩
            · refine Or.inr ⟨{ args with queue := v }, seen, rem0, rest2,
                by rw [scan.eq_def]; simp +decide [h1, h2, h3, h4, hdv], ?_, Or.inl rfl, ?_, fun _ => rfl⟩
              · exact Or.inl ⟨rfl, Or.inr ⟨v, rfl, by simpa using hdv⟩⟩
              · intro hg
                rcases h4 with rfl | rfl <;> simp [gpuToks] at hg
        · by_cases h5 : t = "--2080"
          · by_cases hcf : gpuConflict seen .g2080 = true
            · exact Or.inl ⟨"argument --2080: not allowed with another GPU argument", by rw [scan.eq_def]; simp +decide [h1, h2, h3, h4, h5, hcf]⟩
            · refine Or.inr ⟨{ args with _2080 := true }, some .g2080, rem0, rest,
                by rw [scan.eq_def]; simp +decide [h1, h2, h3, h4, h5, hcf], Or.inl ⟨rfl, Or.inl rfl⟩,
                ?_, ?_, fun _ => rfl⟩
              · subst h5
                exact Or.inr ⟨by decide, by simpa using hcf⟩
              · intro _; subst h5; decide
          · by_cases h6 : t = "--3090"
            · by_cases hcf : gpuConflict seen .g3090 = true
              · exact Or.inl ⟨"argument --3090: not allowed with another GPU argument", by rw [scan.eq_def]; simp +decide [h1, h2, h3, h4, h5, h6, hcf]⟩
              · refine Or.inr ⟨{ args with _3090 := true }, some .g3090, rem0, rest,
                  by rw [scan.eq_def]; simp +decide [h1, h2, h3, h4, h5, h6, hcf], Or.inl ⟨rfl, Or.inl rfl⟩,
                  ?_, ?_, fun _ => rfl⟩
                · subst h6
                  exact Or.inr ⟨by decide, by simpa using hcf⟩
                · intro _; subst h6; decide
            · by_cases h7 : t = "--a100"
              · by_cases hcf : gpuConflict seen .a100 = true
                · exact Or.inl ⟨"argument --a100: not allowed with another GPU argument", by rw [scan.eq_def]; simp +decide [h1, h2, h3, h4, h5, h6, h7, hcf]⟩
                · refine Or.inr ⟨{ args with a100 := true }, some .a100, rem0, rest,
                    by rw [scan.eq_def]; simp +decide [h1, h2, h3, h4, h5, h6, h7, hcf], Or.inl ⟨rfl, Or.inl rfl⟩,
                    ?_, ?_, fun _ => rfl⟩
                  · subst h7
                    exact Or.inr ⟨by decide, by simpa using hcf⟩
                  · intro _; subst h7; decide
              · by_cases h8 : t = "--80g"
                · by_cases hcf : gpuConflict seen .g80g = true
                  · exact Or.inl ⟨"argument --80g: not allowed with another GPU argument", by rw [scan.eq_def]; simp +decide [h1, h2, h3, h4, h5, h6, h7, h8, hcf]⟩
                  · refine Or.inr ⟨{ args with _80g := true }, some .g80g, rem0, rest,
                      by rw [scan.eq_def]; simp +decide [h1, h2, h3, h4, h5, h6, h7, h8, hcf],
                      Or.inl ⟨rfl, Or.inl rfl⟩, ?_, ?_, fun _ => rfl⟩
                    · subst h8
                      exact Or.inr ⟨by decide, by simpa using hcf⟩
                    · intro _; subst h8; decide
                · have hnotg : t ∉ gpuToks := by
                    intro hg
                    simp only [gpuToks, List.mem_cons, List.not_mem_nil, or_false] at hg
                    rcases hg with rfl | rfl | rfl | rfl | rfl
                    · exact h2 rfl
                    · exact h5 rfl
                    · exact h6 rfl
                    · exact h7 rfl
                    · exact h8 rfl
                  cases hbk : breakOnEq t with
                  | some bv =>
                    obtain ⟨base, v⟩ := bv
                    by_cases hb1 : base = "--gputype"
                    · by_cases hcf : gpuConflict seen .gputype = true
                      · exact Or.inl ⟨"argument --gputype: not allowed with another GPU argument", by
                          rw [scan.eq_def]; simp +decide [h1, h2, h3, h4, h5, h6, h7, h8, hbk, hb1, hcf]⟩
                      · refine Or.inr ⟨{ args with gputype := some v }, some .gputype,
                          rem0, rest,
                          by rw [scan.eq_def]; simp +decide [h1, h2, h3, h4, h5, h6, h7, h8, hbk, hb1, hcf],
                          Or.inl ⟨rfl, Or.inl rfl⟩, ?_, fun hg => absurd hg hnotg,
                          fun _ => rfl⟩
                        have hopt : gpuOptOf t = .gputype := by
                          simp [gpuOptOf, h5, h6, h7, h8]
                        exact Or.inr ⟨by rw [hopt], by rw [hopt]; simpa using hcf⟩
                    · by_cases hb2 : base = "--name"
                      · refine Or.inr ⟨{ args with name := v }, seen, rem0, rest,
                          by rw [scan.eq_def]; simp +decide [h1, h2, h3, h4, h5, h6, h7, h8, hbk, hb1, hb2],
                          Or.inl ⟨rfl, Or.inl rfl⟩, Or.inl rfl, fun hg => absurd hg hnotg,
                          ?_⟩
                        intro hnt
                        exact absurd (Or.inr (Or.inr (by simp [nameEqForm, hbk, hb2]))) hnt
                      · by_cases hb3 : base = "--queue"
                        · exact Or.inr ⟨{ args with queue := v }, seen, rem0, rest,
                            by rw [scan.eq_def]; simp +decide [h1, h2, h3, h4, h5, h6, h7, h8, hbk, hb1, hb2, hb3],
                            Or.inl ⟨rfl, Or.inl rfl⟩, Or.inl rfl, fun hg => absurd hg hnotg,
                            fun _ => rfl⟩
                        · exact Or.inr ⟨args, seen, rem0 ++ [t], rest,
                            by rw [scan.eq_def]; simp +decide [h1, h2, h3, h4, h5, h6, h7, h8, hbk, hb1, hb2, hb3],
                            Or.inr ⟨rfl, rfl, rfl, rfl⟩, Or.inl rfl,
                            fun hg => absurd hg hnotg, fun _ => rfl⟩
                  | none =>
                    exact Or.inr ⟨args, seen, rem0 ++ [t], rest,
                      by rw [scan.eq_def]; simp +decide [h1, h2, h3, h4, h5, h6, h7, h8, hbk],
                      Or.inr ⟨rfl, rfl, rfl, rfl⟩, Or.inl rfl,
                      fun hg => absurd hg hnotg, fun _ => rfl⟩
  · -- not option-like: positional or surplus
    cases hrs : args.runner_script with
    | none =>
      exact Or.inr ⟨{ args with runner_script := some t }, seen, rem0, rest,
        by rw [scan.eq_def]; simp +decide [h1, hrs], Or.inl ⟨rfl, Or.inl rfl⟩, Or.inl rfl,
        fun hg => absurd (gpuToks_dash t hg) h1, fun _ => rfl⟩
    | some rs =>
      exact Or.inr ⟨args, seen, rem0 ++ [t], rest,
        by rw [scan.eq_def]; simp +decide [h1, hrs], Or.inr ⟨rfl, rfl, rfl, rfl⟩, Or.inl rfl,
        fun hg => absurd (gpuToks_dash t hg) h1, fun _ => rfl⟩


theorem ScanStep.len {args seen rem0 t rest args' seen' rem' rest'}
    (h : ScanStep args seen rem0 t rest args' seen' rem' rest') :
    rest'.length ≤ rest.length := by
  rcases h.2.1 with ⟨_, hre | ⟨v, hvr, _⟩⟩ | ⟨_, hre, _, _⟩
  · rw [hre]
  · rw [hvr]; simp
  · rw [hre]

theorem ScanStep.mem_rest' {args seen rem0 t rest args' seen' rem' rest'}
    (h : ScanStep args seen rem0 t rest args' seen' rem' rest')
    (g : String) (hg : g ∈ rest) (hgd : dashArg g = true) : g ∈ rest' := by
  rcases h.2.1 with ⟨_, hre | ⟨v, hvr, hdv⟩⟩ | ⟨_, hre, _, _⟩
  · rwa [hre]
  · rw [hvr] at hg
    rcases List.mem_cons.mp hg with rfl | hmem
    · rw [hgd] at hdv; exact absurd hdv (by simp)
    · exact hmem
  · rwa [hre]

theorem ScanStep.seen_some {args seen rem0 t rest args' seen' rem' rest'}
    (h : ScanStep args seen rem0 t rest args' seen' rem' rest')
    (o : GpuOpt) (hs : seen = some o) : seen' = some o := by
  rcases h.2.2.1 with h1 | ⟨h1, hcf⟩
  · rw [h1, hs]
  · rw [hs] at hcf
    have h2 : ¬(o ≠ gpuOptOf t) := of_decide_eq_false (by simpa [gpuConflict] using hcf)
    rw [h1, not_not.mp h2]

theorem scan_rem_sublist :
    ∀ (N : ℕ) (tokens : List String) (args : Args) (seen : Option GpuOpt)
      (rem0 : List String) (args2 : Args) (rem2 : List String),
      tokens.length ≤ N → scan args seen rem0 tokens = .ok (args2, rem2) →
      ∃ d, rem2 = rem0 ++ d ∧ d.Sublist tokens := by
  intro N
  induction N with
  | zero =>
    intro tokens args seen rem0 args2 rem2 hlen hscan
    have htok : tokens = [] := List.eq_nil_of_length_eq_zero (Nat.le_zero.mp hlen)
    subst htok
    rw [scan_nil] at hscan
    injection hscan with h
    injection h with h1 h2
    exact ⟨[], by rw [← h2, List.append_nil], List.nil_sublist _⟩
  | succ M ih =>
    intro tokens args seen rem0 args2 rem2 hlen hscan
    cases tokens with
    | nil =>
      rw [scan_nil] at hscan
      injection hscan with h
      injection h with h1 h2
      exact ⟨[], by rw [← h2, List.append_nil], List.nil_sublist _⟩
    | cons t rest =>
      have hrest : rest.length ≤ M := by
        simp only [List.length_cons] at hlen; omega
      rcases scan_cons_spec args seen rem0 t rest with ⟨e, he⟩ |
        ⟨args', seen', rem', rest', hstep⟩
      · rw [he] at hscan; exact Except.noConfusion hscan
      · have hlen' : rest'.length ≤ M := le_trans hstep.len hrest
        rw [hstep.1] at hscan
        obtain ⟨d, hd, hsub⟩ := ih rest' args' seen' rem' args2 rem2 hlen' hscan
        rcases hstep.2.1 with ⟨hrem, hre | ⟨v, hvr, _⟩⟩ | ⟨hrem, hre, _, _⟩
        · subst hrem
          exact ⟨d, hd, (hre ▸ hsub).cons t⟩
        · subst hrem
          exact ⟨d, hd, by rw [hvr]; exact (hsub.cons v).cons t⟩
        · subst hrem
          exact ⟨t :: d, by rw [hd, List.append_assoc]; rfl,
            List.Sublist.cons₂ t (hre ▸ hsub)⟩

theorem scan_gpu_seen_error :
    ∀ (N : ℕ) (tokens : List String) (args : Args) (o : GpuOpt) (rem0 : List String)
      (g : String), tokens.length ≤ N → g ∈ tokens → g ∈ gpuToks → gpuOptOf g ≠ o →
      ∃ e, scan args (some o) rem0 tokens = .error e := by
  intro N
  induction N with
  | zero =>
    intro tokens args o rem0 g hlen hg _ _
    have htok : tokens = [] := List.eq_nil_of_length_eq_zero (Nat.le_zero.mp hlen)
    subst htok
    exact absurd hg (List.not_mem_nil g)
  | succ M ih =>
    intro tokens args o rem0 g hlen hg hgt hne
    cases tokens with
    | nil => exact absurd hg (List.not_mem_nil g)
    | cons t rest =>
      have hrest : rest.length ≤ M := by
        simp only [List.length_cons] at hlen; omega
      rcases scan_cons_spec args (some o) rem0 t rest with ⟨e, he⟩ |
        ⟨args', seen', rem', rest', hstep⟩
      · exact ⟨e, he⟩
      · have hseen' : seen' = some o := hstep.seen_some o rfl
        rcases List.mem_cons.mp hg with rfl | hgrest
        · have h2 := hstep.2.2.2.1 hgt
          rw [hseen'] at h2
          exact absurd (Option.some.inj h2).symm hne
        · have hg' : g ∈ rest' := hstep.mem_rest' g hgrest (gpuToks_dash g hgt).1
          have hlen' : rest'.length ≤ M := le_trans hstep.len hrest
          rw [hstep.1, hseen']
          exact ih rest' args' o rem' g hlen' hg' hgt hne

theorem scan_two_gpu_error :
    ∀ (N : ℕ) (tokens : List String) (args : Args) (seen : Option GpuOpt)
      (rem0 : List String) (t1 t2 : String),
      tokens.length ≤ N → t1 ∈ tokens → t2 ∈ tokens → t1 ∈ gpuToks → t2 ∈ gpuToks →
      t1 ≠ t2 → ∃ e, scan args seen rem0 tokens = .error e := by
  intro N
  induction N with
  | zero =>
    intro tokens args seen rem0 t1 t2 hlen h1 _ _ _ _
    have htok : tokens = [] := List.eq_nil_of_length_eq_zero (Nat.le_zero.mp hlen)
    subst htok
    exact absurd h1 (List.not_mem_nil t1)
  | succ M ih =>
    intro tokens args seen rem0 t1 t2 hlen h1 h2 hg1 hg2 hne
    cases tokens with
    | nil => exact absurd h1 (List.not_mem_nil t1)
    | cons t rest =>
      have hrest : rest.length ≤ M := by
        simp only [List.length_cons] at hlen; omega
      rcases scan_cons_spec args seen rem0 t rest with ⟨e, he⟩ |
        ⟨args', seen', rem', rest', hstep⟩
      · exact ⟨e, he⟩
      · have hlen' : rest'.length ≤ M := le_trans hstep.len hrest
        by_cases ht1 : t = t1
        · subst ht1
          have hseen' : seen' = some (gpuOptOf t) := hstep.2.2.2.1 hg1
          have h2r : t2 ∈ rest := by
            rcases List.mem_cons.mp h2 with rfl | h
            · exact absurd rfl hne.symm
            · exact h
          have h2r' : t2 ∈ rest' := hstep.mem_rest' t2 h2r (gpuToks_dash t2 hg2).1
          rw [hstep.1, hseen']
          exact scan_gpu_seen_error M rest' args' (gpuOptOf t) rem' t2 hlen' h2r' hg2
            (gpuOptOf_injOn t2 hg2 t hg1 (Ne.symm hne))
        · by_cases ht2 : t = t2
          · subst ht2
            have hseen' : seen' = some (gpuOptOf t) := hstep.2.2.2.1 hg2
            have h1r : t1 ∈ rest := by
              rcases List.mem_cons.mp h1 with rfl | h
              · exact absurd rfl ht1
              · exact h
            have h1r' : t1 ∈ rest' := hstep.mem_rest' t1 h1r (gpuToks_dash t1 hg1).1
            rw [hstep.1, hseen']
            exact scan_gpu_seen_error M rest' args' (gpuOptOf t) rem' t1 hlen' h1r' hg1
              (gpuOptOf_injOn t1 hg1 t hg2 hne)
          · have h1r : t1 ∈ rest := by
              rcases List.mem_cons.mp h1 with rfl | h
              · exact absurd rfl ht1
              · exact h
            have h2r : t2 ∈ rest := by
              rcases List.mem_cons.mp h2 with rfl | h
              · exact absurd rfl ht2
              · exact h
            have h1r' : t1 ∈ rest' := hstep.mem_rest' t1 h1r (gpuToks_dash t1 hg1).1
            have h2r' : t2 ∈ rest' := hstep.mem_rest' t2 h2r (gpuToks_dash t2 hg2).1
            rw [hstep.1]
            exact ih rest' args' seen' rem' t1 t2 hlen' h1r' h2r' hg1 hg2 hne

theorem scan_name_invariant :
    ∀ (N : ℕ) (tokens : List String) (args : Args) (seen : Option GpuOpt)
      (rem0 : List String) (args2 : Args) (rem2 : List String),
      tokens.length ≤ N → (∀ x ∈ tokens, ¬ nameTok x) →
      scan args seen rem0 tokens = .ok (args2, rem2) → args2.name = args.name := by
  intro N
  induction N with
  | zero =>
    intro tokens args seen rem0 args2 rem2 hlen _ hscan
    have htok : tokens = [] := List.eq_nil_of_length_eq_zero (Nat.le_zero.mp hlen)
    subst htok
    rw [scan_nil] at hscan
    injection hscan with h
    injection h with h1 h2
    rw [← h1]
  | succ M ih =>
    intro tokens args seen rem0 args2 rem2 hlen hname hscan
    cases tokens with
    | nil =>
      rw [scan_nil] at hscan
      injection hscan with h
      injection h with h1 h2
      rw [← h1]
    | cons t rest =>
      have hrest : rest.length ≤ M := by
        simp only [List.length_cons] at hlen; omega
      rcases scan_cons_spec args seen rem0 t rest with ⟨e, he⟩ |
        ⟨args', seen', rem', rest', hstep⟩
      · rw [he] at hscan; exact Except.noConfusion hscan
      · have hlen' : rest'.length ≤ M := le_trans hstep.len hrest
        rw [hstep.1] at hscan
        have hname' : ∀ x ∈ rest', ¬ nameTok x := by
          intro x hx
          refine hname x (List.mem_cons_of_mem t ?_)
          rcases hstep.2.1 with ⟨_, hre | ⟨v, hvr, _⟩⟩ | ⟨_, hre, _, _⟩
          · rwa [hre] at hx
          · rw [hvr]; exact List.mem_cons_of_mem v hx
          · rwa [hre] at hx
        have h1 := ih rest' args' seen' rem' args2 rem2 hlen' hname' hscan
        rw [h1, hstep.2.2.2.2 (hname t (List.mem_cons_self t rest))]


theorem scan_passThru_step (args : Args) (seen : Option GpuOpt) (rem0 : List String)
    (x : String) (l : List String) (hx : passThru x) :
    scan args seen rem0 (x :: l) = scan args seen (rem0 ++ [x]) l := by
  obtain ⟨hd, hnd, hnm, hef⟩ := hx
  simp only [List.mem_cons, List.not_mem_nil, or_false, not_or] at hnm
  obtain ⟨hn1, hn2, hn3, hn4, hn5, hn6, hn7, hn8, hn9⟩ := hnm
  cases hbk : breakOnEq x with
  | none =>
    rw [scan.eq_def]
    simp [hd, hnd, hn1, hn2, hn3, hn4, hn5, hn6, hn7, hn8, hn9, hbk]
  | some bv =>
    obtain ⟨base, v⟩ := bv
    have hb : base ∉ (["--gputype", "--name", "--queue"] : List String) :=
      of_decide_eq_false (by simpa [eqFormRecognized, hbk] using hef)
    simp only [List.mem_cons, List.not_mem_nil, or_false, not_or] at hb
    obtain ⟨hb1, hb2, hb3⟩ := hb
    rw [scan.eq_def]
    simp [hd, hnd, hn1, hn2, hn3, hn4, hn5, hn6, hn7, hn8, hn9, hbk, hb1, hb2, hb3]

theorem scan_passThru :
    ∀ (l : List String) (args : Args) (seen : Option GpuOpt) (rem0 : List String),
      (∀ x ∈ l, passThru x) → scan args seen rem0 l = .ok (args, rem0 ++ l) := by
  intro l
  induction l with
  | nil => intro args seen rem0 _; rw [scan_nil, List.append_nil]
  | cons x l ih =>
    intro args seen rem0 h
    rw [scan_passThru_step args seen rem0 x l (h x (List.mem_cons_self x l)),
      ih _ _ _ (fun y hy => h y (List.mem_cons_of_mem x hy))]
    simp

theorem scan_positional_step (args : Args) (seen : Option GpuOpt) (rem0 : List String)
    (x : String) (l : List String) (hdx : dashArg x = false)
    (hrs : args.runner_script = none) :
    scan args seen rem0 (x :: l) = scan { args with runner_script := some x } seen rem0 l := by
  rw [scan.eq_def]
  simp [hdx, hrs]


theorem scan_gputype_step (args : Args) (rem0 : List String) (v : String)
    (l : List String) (hdv : dashArg v = false) :
    scan args none rem0 ("--gputype" :: v :: l)
      = scan { args with gputype := some v } (some .gputype) rem0 l := by
  rw [scan.eq_def]
  simp +decide [hdv, gpuConflict]

theorem scan_2080_step (args : Args) (rem0 : List String) (l : List String) :
    scan args none rem0 ("--2080" :: l)
      = scan { args with _2080 := true } (some .g2080) rem0 l := by
  rw [scan.eq_def]
  simp +decide [gpuConflict]

theorem scan_3090_step (args : Args) (rem0 : List String) (l : List String) :
    scan args none rem0 ("--3090" :: l)
      = scan { args with _3090 := true } (some .g3090) rem0 l := by
  rw [scan.eq_def]
  simp +decide [gpuConflict]

theorem scan_a100_step (args : Args) (rem0 : List String) (l : List String) :
    scan args none rem0 ("--a100" :: l)
      = scan { args with a100 := true } (some .a100) rem0 l := by
  rw [scan.eq_def]
  simp +decide [gpuConflict]

theorem scan_80g_step (args : Args) (rem0 : List String) (l : List String) :
    scan args none rem0 ("--80g" :: l)
      = scan { args with _80g := true } (some .g80g) rem0 l := by
  rw [scan.eq_def]
  simp +decide [gpuConflict]

theorem scan_n_step (args : Args) (seen : Option GpuOpt) (rem0 : List String)
    (v : String) (l : List String) (hdv : dashArg v = false) :
    scan args seen rem0 ("-n" :: v :: l) = scan { args with name := v } seen rem0 l := by
  rw [scan.eq_def]
  simp +decide [hdv]

theorem parse_of_scan (tokens : List String) (args : Args) (rem : List String)
    (z : String) (hs : scan initArgs none [] tokens = .ok (args, rem))
    (hz : args.runner_script = some z) : parse_known_args tokens = .ok (args, rem) := by
  simp [parse_known_args, hs, hz]

theorem main_of_parse (tokens : List String) (r : ℕ) (args : Args) (rem : List String)
    (hp : parse_known_args tokens = .ok (args, rem)) :
    extract_args_main tokens r = .ok (joinSpace (output_args args rem r)) := by
  simp [extract_args_main, hp]

/-- C3 (confirmed): whenever parsing succeeds, the printed command is the
GPU flag field, then `-n` plus the resolved job name, then `-q` plus the
queue (default `cnu` from the parser defaults), then `--cmd python` plus the
runner script path, then every unrecognized argument, all joined by single
spaces; and the unrecognized arguments are a sublist of the original
invocation, so their original relative order is preserved. -/
theorem extract_args_output_format (tokens : List String) (r : ℕ) (args : Args)
    (rem : List String) (hp : parse_known_args tokens = .ok (args, rem)) :
    extract_args_main tokens r
      = .ok (joinSpace ([gpu_flag args,
          "-n " ++ resolvedName args.name r,
          "-q " ++ args.queue,
          "--cmd python " ++ (args.runner_script.getD "")] ++ rem))
    ∧ rem.Sublist tokens := by
  constructor
  · rw [main_of_parse tokens r args rem hp, output_args]
  · have hs : scan initArgs none [] tokens = .ok (args, rem) := by
      cases hsc : scan initArgs none [] tokens with
      | error e => rw [parse_known_args, hsc] at hp; exact Except.noConfusion hp
      | ok p =>
        obtain ⟨a2, r2⟩ := p
        cases hrs : a2.runner_script with
        | none =>
          rw [parse_known_args, hsc] at hp
          simp only [hrs] at hp
          exact Except.noConfusion hp
        | some rs =>
          rw [parse_known_args, hsc] at hp
          simp only [hrs] at hp
          injection hp with h
          rw [h]
    obtain ⟨d, hd, hsub⟩ := scan_rem_sublist tokens.length tokens initArgs none []
      args rem (le_refl _) hs
    rw [hd]
    simpa using hsub

/-- Witness for C3: the invocation from the script's own usage example. -/
theorem extract_args_output_format_witness :
    extract_args_main ["./runners/autointerp.py", "--3090", "-n", "my_name", "-j", "10"] 1234
      = .ok (joinSpace ([gpu_flag ⟨none, false, true, false, false, "my_name", "cnu",
            some "./runners/autointerp.py"⟩,
          "-n " ++ resolvedName "my_name" 1234,
          "-q " ++ "cnu",
          "--cmd python " ++ ((some "./runners/autointerp.py").getD "")] ++ ["-j", "10"]))
    ∧ (["-j", "10"] : List String).Sublist
        ["./runners/autointerp.py", "--3090", "-n", "my_name", "-j", "10"] :=
  extract_args_output_format ["./runners/autointerp.py", "--3090", "-n", "my_name", "-j", "10"]
    1234 ⟨none, false, true, false, false, "my_name", "cnu", some "./runners/autointerp.py"⟩
    ["-j", "10"] (by rfl)

/-- C6 (confirmed): supplying two distinct members of the mutually
exclusive GPU group makes parsing fail with an error, so no command is
printed; with at most one member (and a well-formed invocation: a non-option
runner-script token, a non-option value for `--gputype`, and otherwise only
pass-through tokens), parsing of the recognized flags succeeds. -/
theorem extract_args_gpu_mutual_exclusion :
    (forall (tokens : List String) (r : Nat) (t1 t2 : String),
        t1 ∈ tokens → t2 ∈ tokens → t1 ∈ gpuToks → t2 ∈ gpuToks → t1 ≠ t2 →
        ∃ e, extract_args_main tokens r = .error e)
    ∧ (forall (runner v : String) (extras : List String) (r : Nat),
        dashArg runner = false → dashArg v = false → (∀ x ∈ extras, passThru x) →
        ∀ gp ∈ ([[], ["--gputype", v], ["--2080"], ["--3090"], ["--a100"], ["--80g"]] :
            List (List String)),
          ∃ out, extract_args_main (gp ++ runner :: extras) r = .ok out) := by
  constructor
  · intro tokens r t1 t2 h1 h2 hg1 hg2 hne
    obtain ⟨e, he⟩ := scan_two_gpu_error tokens.length tokens initArgs none [] t1 t2
      (le_refl _) h1 h2 hg1 hg2 hne
    exact ⟨e, by simp [extract_args_main, parse_known_args, he]⟩
  · intro runner v extras r hdr hdv hex gp hgp
    have hpos : ∀ (args : Args) (seen : Option GpuOpt), args.runner_script = none →
        scan args seen [] (runner :: extras)
          = .ok ({ args with runner_script := some runner }, extras) := by
      intro args seen hrs
      rw [scan_positional_step args seen [] runner extras hdr hrs,
        scan_passThru extras _ _ _ hex]
      simp
    simp only [List.mem_cons, List.not_mem_nil, or_false] at hgp
    rcases hgp with rfl | rfl | rfl | rfl | rfl | rfl
    · have h2 : scan initArgs none [] (([] : List String) ++ runner :: extras)
          = .ok ({ initArgs with runner_script := some runner }, extras) := by
        rw [List.nil_append]
        simpa using hpos initArgs none rfl
      exact ⟨_, main_of_parse _ r _ extras (parse_of_scan _ _ _ runner h2 rfl)⟩
    · have h1 := hpos { initArgs with gputype := some v } (some .gputype) rfl
      have h2 : scan initArgs none [] (["--gputype", v] ++ runner :: extras)
          = .ok ({ { initArgs with gputype := some v } with runner_script := some runner }, extras) := by
        rw [List.cons_append, List.cons_append, List.nil_append,
          scan_gputype_step initArgs [] v (runner :: extras) hdv]
        simpa using h1
      exact ⟨_, main_of_parse _ r _ extras (parse_of_scan _ _ _ runner h2 rfl)⟩
    · have h1 := hpos { initArgs with _2080 := true } (some .g2080) rfl
      have h2 : scan initArgs none [] (["--2080"] ++ runner :: extras)
          = .ok ({ { initArgs with _2080 := true } with runner_script := some runner }, extras) := by
        rw [List.cons_append, List.nil_append, scan_2080_step initArgs [] (runner :: extras)]
        simpa using h1
      exact ⟨_, main_of_parse _ r _ extras (parse_of_scan _ _ _ runner h2 rfl)⟩
    · have h1 := hpos { initArgs with _3090 := true } (some .g3090) rfl
      have h2 : scan initArgs none [] (["--3090"] ++ runner :: extras)
          = .ok ({ { initArgs with _3090 := true } with runner_script := some runner }, extras) := by
        rw [List.cons_append, List.nil_append, scan_3090_step initArgs [] (runner :: extras)]
        simpa using h1
      exact ⟨_, main_of_parse _ r _ extras (parse_of_scan _ _ _ runner h2 rfl)⟩
    · have h1 := hpos { initArgs with a100 := true } (some .a100) rfl
      have h2 : scan initArgs none [] (["--a100"] ++ runner :: extras)
          = .ok ({ { initArgs with a100 := true } with runner_script := some runner }, extras) := by
        rw [List.cons_append, List.nil_append, scan_a100_step initArgs [] (runner :: extras)]
        simpa using h1
      exact ⟨_, main_of_parse _ r _ extras (parse_of_scan _ _ _ runner h2 rfl)⟩
    · have h1 := hpos { initArgs with _80g := true } (some .g80g) rfl
      have h2 : scan initArgs none [] (["--80g"] ++ runner :: extras)
          = .ok ({ { initArgs with _80g := true } with runner_script := some runner }, extras) := by
        rw [List.cons_append, List.nil_append, scan_80g_step initArgs [] (runner :: extras)]
        simpa using h1
      exact ⟨_, main_of_parse _ r _ extras (parse_of_scan _ _ _ runner h2 rfl)⟩

/-- Witness for C6: `--2080 --3090 r` errors; `--a100 r` (one GPU flag, a
runner and no extras) parses and prints a command. -/
theorem extract_args_gpu_mutual_exclusion_witness :
    (∃ e, extract_args_main ["--2080", "--3090", "r"] 1234 = .error e)
    ∧ (∃ out, extract_args_main (["--a100"] ++ "r" :: []) 1234 = .ok out) :=
  ⟨extract_args_gpu_mutual_exclusion.1 ["--2080", "--3090", "r"] 1234 "--2080" "--3090"
      (by decide) (by decide) (by decide) (by decide) (by decide),
   extract_args_gpu_mutual_exclusion.2 "r" "v" [] 1234 (by decide) (by decide)
      (by intro x hx; exact absurd hx (List.not_mem_nil x)) ["--a100"] (by decide)⟩




theorem scan_of_parse (tokens : List String) (args : Args) (rem : List String)
    (hp : parse_known_args tokens = .ok (args, rem)) :
    scan initArgs none [] tokens = .ok (args, rem) := by
  cases hsc : scan initArgs none [] tokens with
  | error e => rw [parse_known_args, hsc] at hp; exact Except.noConfusion hp
  | ok p =>
    obtain ⟨a2, r2⟩ := p
    cases hrs : a2.runner_script with
    | none =>
      rw [parse_known_args, hsc] at hp
      simp only [hrs] at hp
      exact Except.noConfusion hp
    | some rs =>
      rw [parse_known_args, hsc] at hp
      simp only [hrs] at hp
      injection hp with h
      rw [h]

theorem extract_args_2080_output (runner : String) (r : ℕ) (hdr : dashArg runner = false) :
    extract_args_main ["--2080", runner] r
      = .ok (joinSpace ["--gputype rtx_2080", "-n jsae" ++ toString r, "-q cnu",
          "--cmd python " ++ runner]) := by
  have hs : scan initArgs none [] ["--2080", runner]
      = .ok ({ { initArgs with _2080 := true } with runner_script := some runner }, []) := by
    rw [scan_2080_step initArgs [] [runner],
      scan_positional_step { initArgs with _2080 := true } (some .g2080) [] runner [] hdr rfl,
      scan_nil]
  rw [main_of_parse _ r _ [] (parse_of_scan _ _ _ runner hs rfl)]
  simp [output_args, gpu_flag, truthyGputype, gpu_flag_rest, resolvedName, initArgs, joinSpace]
  rfl

theorem extract_args_3090_output (runner : String) (r : ℕ) (hdr : dashArg runner = false) :
    extract_args_main ["--3090", runner] r
      = .ok (joinSpace ["--gputype rtx_3090", "-n jsae" ++ toString r, "-q cnu",
          "--cmd python " ++ runner]) := by
  have hs : scan initArgs none [] ["--3090", runner]
      = .ok ({ { initArgs with _3090 := true } with runner_script := some runner }, []) := by
    rw [scan_3090_step initArgs [] [runner],
      scan_positional_step { initArgs with _3090 := true } (some .g3090) [] runner [] hdr rfl,
      scan_nil]
  rw [main_of_parse _ r _ [] (parse_of_scan _ _ _ runner hs rfl)]
  simp [output_args, gpu_flag, truthyGputype, gpu_flag_rest, resolvedName, initArgs, joinSpace]
  rfl

theorem extract_args_a100_output (runner : String) (r : ℕ) (hdr : dashArg runner = false) :
    extract_args_main ["--a100", runner] r
      = .ok (joinSpace ["--gputype A100", "-n jsae" ++ toString r, "-q cnu",
          "--cmd python " ++ runner]) := by
  have hs : scan initArgs none [] ["--a100", runner]
      = .ok ({ { initArgs with a100 := true } with runner_script := some runner }, []) := by
    rw [scan_a100_step initArgs [] [runner],
      scan_positional_step { initArgs with a100 := true } (some .a100) [] runner [] hdr rfl,
      scan_nil]
  rw [main_of_parse _ r _ [] (parse_of_scan _ _ _ runner hs rfl)]
  simp [output_args, gpu_flag, truthyGputype, gpu_flag_rest, resolvedName, initArgs, joinSpace]
  rfl

theorem extract_args_80g_output (runner : String) (r : ℕ) (hdr : dashArg runner = false) :
    extract_args_main ["--80g", runner] r
      = .ok (joinSpace ["--gputype A100 --exclude_40G_A100", "-n jsae" ++ toString r, "-q cnu",
          "--cmd python " ++ runner]) := by
  have hs : scan initArgs none [] ["--80g", runner]
      = .ok ({ { initArgs with _80g := true } with runner_script := some runner }, []) := by
    rw [scan_80g_step initArgs [] [runner],
      scan_positional_step { initArgs with _80g := true } (some .g80g) [] runner [] hdr rfl,
      scan_nil]
  rw [main_of_parse _ r _ [] (parse_of_scan _ _ _ runner hs rfl)]
  simp [output_args, gpu_flag, truthyGputype, gpu_flag_rest, resolvedName, initArgs, joinSpace]
  rfl

theorem extract_args_gputype_output (runner v : String) (r : ℕ)
    (hdr : dashArg runner = false) (hdv : dashArg v = false) (hv : v ≠ "") :
    extract_args_main [runner, "--gputype", v] r
      = .ok (joinSpace ["--gputype " ++ v, "-n jsae" ++ toString r, "-q cnu",
          "--cmd python " ++ runner]) := by
  have hs : scan initArgs none [] [runner, "--gputype", v]
      = .ok ({ { initArgs with runner_script := some runner } with gputype := some v }, []) := by
    rw [scan_positional_step initArgs none [] runner ["--gputype", v] hdr rfl,
      scan_gputype_step { initArgs with runner_script := some runner } [] v [] hdv,
      scan_nil]
  rw [main_of_parse _ r _ [] (parse_of_scan _ _ _ runner hs rfl)]
  simp [output_args, gpu_flag, truthyGputype, gpu_flag_rest, resolvedName, initArgs,
    joinSpace, hv]
  rfl

theorem extract_args_no_gpu_output (runner : String) (r : ℕ) (hdr : dashArg runner = false) :
    extract_args_main [runner] r
      = .ok (joinSpace ["", "-n jsae" ++ toString r, "-q cnu", "--cmd python " ++ runner])
    ∧ (joinSpace ["", "-n jsae" ++ toString r, "-q cnu",
        "--cmd python " ++ runner]).data.head? = some ' ' := by
  constructor
  · have hs : scan initArgs none [] [runner]
        = .ok ({ initArgs with runner_script := some runner }, []) := by
      rw [scan_positional_step initArgs none [] runner [] hdr rfl, scan_nil]
    rw [main_of_parse _ r _ [] (parse_of_scan _ _ _ runner hs rfl)]
    simp [output_args, gpu_flag, truthyGputype, gpu_flag_rest, resolvedName, initArgs,
      joinSpace]
    rfl
  · rfl


/-- Counterexample for C8: with an explicitly supplied empty `--gputype`
value, the Python truthiness test `if args.gputype:` fails, so the emitted
GPU field is the empty string and not `"--gputype " + value`. -/
theorem extract_args_empty_gputype_counterexample :
    extract_args_main ["r", "--gputype", ""] 1234
      = .ok (joinSpace ["", "-n jsae1234", "-q cnu", "--cmd python r"])
    ∧ joinSpace ["", "-n jsae1234", "-q cnu", "--cmd python r"]
        ≠ joinSpace ["--gputype " ++ "", "-n jsae1234", "-q cnu", "--cmd python r"] := by
  constructor
  · rfl
  · decide

/-- C8 (corrected): the GPU shorthands translate exactly as claimed
(`--2080 ↦ --gputype rtx_2080`, `--3090 ↦ --gputype rtx_3090`,
`--a100 ↦ --gputype A100`, `--80g ↦ --gputype A100 --exclude_40G_A100`);
an explicitly supplied nonempty `--gputype` value is emitted unchanged; and
with no GPU option the GPU field is the empty string, so the printed command
begins with a space.  (Amended per the counterexample: an explicitly
supplied empty `--gputype` value also yields the empty GPU field.) -/
theorem extract_args_gpu_flag_translation :
    (∀ (runner : String) (r : ℕ), dashArg runner = false →
        extract_args_main ["--2080", runner] r
          = .ok (joinSpace ["--gputype rtx_2080", "-n jsae" ++ toString r, "-q cnu",
              "--cmd python " ++ runner]))
    ∧ (∀ (runner : String) (r : ℕ), dashArg runner = false →
        extract_args_main ["--3090", runner] r
          = .ok (joinSpace ["--gputype rtx_3090", "-n jsae" ++ toString r, "-q cnu",
              "--cmd python " ++ runner]))
    ∧ (∀ (runner : String) (r : ℕ), dashArg runner = false →
        extract_args_main ["--a100", runner] r
          = .ok (joinSpace ["--gputype A100", "-n jsae" ++ toString r, "-q cnu",
              "--cmd python " ++ runner]))
    ∧ (∀ (runner : String) (r : ℕ), dashArg runner = false →
        extract_args_main ["--80g", runner] r
          = .ok (joinSpace ["--gputype A100 --exclude_40G_A100", "-n jsae" ++ toString r,
              "-q cnu", "--cmd python " ++ runner]))
    ∧ (∀ (runner v : String) (r : ℕ), dashArg runner = false → dashArg v = false →
        v ≠ "" →
        extract_args_main [runner, "--gputype", v] r
          = .ok (joinSpace ["--gputype " ++ v, "-n jsae" ++ toString r, "-q cnu",
              "--cmd python " ++ runner]))
    ∧ (∀ (runner : String) (r : ℕ), dashArg runner = false →
        extract_args_main [runner] r
          = .ok (joinSpace ["", "-n jsae" ++ toString r, "-q cnu", "--cmd python " ++ runner])
        ∧ (joinSpace ["", "-n jsae" ++ toString r, "-q cnu",
            "--cmd python " ++ runner]).data.head? = some ' ') :=
  ⟨extract_args_2080_output, extract_args_3090_output, extract_args_a100_output,
   extract_args_80g_output, extract_args_gputype_output, extract_args_no_gpu_output⟩

/-- Witness for C8: concrete invocations for a shorthand, an explicit
`--gputype` value, and the no-GPU-option case. -/
theorem extract_args_gpu_flag_translation_witness :
    extract_args_main ["--2080", "run.py"] 1234
      = .ok (joinSpace ["--gputype rtx_2080", "-n jsae" ++ toString 1234, "-q cnu",
          "--cmd python " ++ "run.py"])
    ∧ extract_args_main ["run.py", "--gputype", "A100"] 1234
      = .ok (joinSpace ["--gputype " ++ "A100", "-n jsae" ++ toString 1234, "-q cnu",
          "--cmd python " ++ "run.py"])
    ∧ (extract_args_main ["run.py"] 1234
      = .ok (joinSpace ["", "-n jsae" ++ toString 1234, "-q cnu",
          "--cmd python " ++ "run.py"])
      ∧ (joinSpace ["", "-n jsae" ++ toString 1234, "-q cnu",
          "--cmd python " ++ "run.py"]).data.head? = some ' ') :=
  ⟨extract_args_gpu_flag_translation.1 "run.py" 1234 (by decide),
   extract_args_gpu_flag_translation.2.2.2.2.1 "run.py" "A100" 1234 (by decide) (by decide)
     (by decide),
   extract_args_gpu_flag_translation.2.2.2.2.2 "run.py" 1234 (by decide)⟩

/-- C9 (confirmed): if no `-n`/`--name`/`--name=` token is supplied, the
parsed name keeps the sentinel default `jsae[UNIQUE-ID]` and the emitted job
name is `jsae` followed by the integer sampled by `random.randint(1000,
9999)`, which lies between 1000 and 9999 inclusive; a user-supplied name
different from the sentinel is passed through unchanged; and a user-supplied
name equal to the sentinel is replaced in the same way. -/
theorem extract_args_name_resolution :
    (∀ (tokens : List String) (args : Args) (rem : List String) (r : ℕ),
        (∀ x ∈ tokens, ¬ nameTok x) → parse_known_args tokens = .ok (args, rem) →
        args.name = "jsae[UNIQUE-ID]"
        ∧ resolvedName args.name r = "jsae" ++ toString r)
    ∧ (∀ r : ℕ, 1000 ≤ r → r ≤ 9999 →
        resolvedName "jsae[UNIQUE-ID]" r = "jsae" ++ toString r ∧ 1000 ≤ r ∧ r ≤ 9999)
    ∧ (∀ (nm : String) (r : ℕ), nm ≠ "jsae[UNIQUE-ID]" → resolvedName nm r = nm)
    ∧ (∀ (runner : String) (r : ℕ), dashArg runner = false →
        extract_args_main [runner, "-n", "jsae[UNIQUE-ID]"] r
          = .ok (joinSpace ["", "-n jsae" ++ toString r, "-q cnu",
              "--cmd python " ++ runner])) := by
  refine ⟨?_, ?_, ?_, ?_⟩
  · intro tokens args rem r hnm hp
    have hname := scan_name_invariant tokens.length tokens initArgs none [] args rem
      (le_refl _) hnm (scan_of_parse tokens args rem hp)
    refine ⟨hname.trans rfl, ?_⟩
    rw [hname]
    rfl
  · intro r h1 h2
    exact ⟨rfl, h1, h2⟩
  · intro nm r hne
    simp [resolvedName, hne]
  · intro runner r hdr
    have hs : scan initArgs none [] [runner, "-n", "jsae[UNIQUE-ID]"]
        = .ok ({ { initArgs with runner_script := some runner }
            with name := "jsae[UNIQUE-ID]" }, []) := by
      rw [scan_positional_step initArgs none [] runner ["-n", "jsae[UNIQUE-ID]"] hdr rfl,
        scan_n_step { initArgs with runner_script := some runner } none []
          "jsae[UNIQUE-ID]" [] (by decide), scan_nil]
    rw [main_of_parse _ r _ [] (parse_of_scan _ _ _ runner hs rfl)]
    simp [output_args, gpu_flag, truthyGputype, gpu_flag_rest, resolvedName, initArgs,
      joinSpace]
    rfl

/-- Witness for C9: the sentinel-default, the random replacement bounds, the
pass-through of a custom name, and an explicitly supplied sentinel name. -/
theorem extract_args_name_resolution_witness :
    (({ initArgs with runner_script := some "run.py" } : Args).name = "jsae[UNIQUE-ID]"
      ∧ resolvedName ({ initArgs with runner_script := some "run.py" } : Args).name 1234
          = "jsae" ++ toString 1234)
    ∧ (resolvedName "jsae[UNIQUE-ID]" 1234 = "jsae" ++ toString 1234
        ∧ 1000 ≤ 1234 ∧ 1234 ≤ 9999)
    ∧ resolvedName "my_name" 1234 = "my_name"
    ∧ extract_args_main ["run.py", "-n", "jsae[UNIQUE-ID]"] 1234
        = .ok (joinSpace ["", "-n jsae" ++ toString 1234, "-q cnu",
            "--cmd python " ++ "run.py"]) :=
  ⟨extract_args_name_resolution.1 ["run.py"]
      { initArgs with runner_script := some "run.py" } [] 1234 (by decide) (by rfl),
   extract_args_name_resolution.2.1 1234 (by decide) (by decide),
   extract_args_name_resolution.2.2.1 "my_name" 1234 (by decide),
   extract_args_name_resolution.2.2.2 "run.py" 1234 (by decide)⟩


/-- C5 (confirmed): any prompt response other than `y` or the empty
string makes the sync script exit with status 1 without invoking rsync (the
remote copy is untouched); a `y` or empty response makes it run exactly one
rsync of the `hpc_utils`, `jacobian_saes` and `runners` directories to
`bp:~/work/jacobian_saes`, excluding `*.pyc` and `.DS_Store`. -/
theorem sync_script_confirmation :
    (∀ (parentDir response : String), response ≠ "y" → response ≠ "" →
        sync_script_run parentDir response = (1, []))
    ∧ (∀ parentDir : String,
        sync_script_run parentDir "y"
          = (0, [{ excludes := ["*.pyc", ".DS_Store"],
                   sources := [parentDir ++ "/hpc_utils", parentDir ++ "/jacobian_saes",
                               parentDir ++ "/runners"],
                   dest := "bp:~/work/jacobian_saes" }])
        ∧ sync_script_run parentDir ""
          = (0, [{ excludes := ["*.pyc", ".DS_Store"],
                   sources := [parentDir ++ "/hpc_utils", parentDir ++ "/jacobian_saes",
                               parentDir ++ "/runners"],
                   dest := "bp:~/work/jacobian_saes" }])) := by
  constructor
  · intro pd resp h1 h2
    simp [sync_script_run, h1, h2]
  · intro pd
    constructor <;> simp [sync_script_run, rsyncCallOf]

/-- Witness for C5: the response `n` aborts with status 1 and no rsync; `y`
and the empty response run the rsync. -/
theorem sync_script_confirmation_witness :
    sync_script_run "/home/u" "n" = (1, [])
    ∧ (sync_script_run "/home/u" "y"
        = (0, [{ excludes := ["*.pyc", ".DS_Store"],
                 sources := ["/home/u" ++ "/hpc_utils", "/home/u" ++ "/jacobian_saes",
                             "/home/u" ++ "/runners"],
                 dest := "bp:~/work/jacobian_saes" }])
      ∧ sync_script_run "/home/u" ""
        = (0, [{ excludes := ["*.pyc", ".DS_Store"],
                 sources := ["/home/u" ++ "/hpc_utils", "/home/u" ++ "/jacobian_saes",
                             "/home/u" ++ "/runners"],
                 dest := "bp:~/work/jacobian_saes" }])) :=
  ⟨sync_script_confirmation.1 "/home/u" "n" (by decide) (by decide),
   sync_script_confirmation.2 "/home/u"⟩

/-- Counterexample for C4: a project holding an artifact of a type outside
the hard-coded `type_names` list (here type `dataset`); the script never
downloads it, so an artifact stored in the project remains undownloaded. -/
theorem download_misses_other_types_counterexample :
    "dataset-a" ∈ allProjectArtifacts projEx ∧ "dataset-a" ∉ download_all projEx := by
  decide

/-- C4 (corrected): assuming the project's artifact-type names are
distinct, the set of artifacts the script downloads is exactly the artifacts
of the three hard-coded types `model`, `log_feature_sparsity` and
`wandb-history` (every collection of those types is visited and every
artifact in them is downloaded); artifacts of any other type are not
downloaded. -/
theorem download_all_covers_hardcoded_types (p : WandbProject)
    (hnd : (p.map ArtifactTypeData.type_name).Nodup) :
    ∀ a : String, a ∈ download_all p ↔
      ∃ t ∈ p, t.type_name ∈ type_names ∧ ∃ c ∈ t.collections, a ∈ c := by
  intro a
  rw [download_all]
  simp only [List.mem_flatten, List.mem_map]
  constructor
  · rintro ⟨L, ⟨⟨tn, htn, hL⟩, haL⟩⟩
    rw [← hL] at haL
    rw [collectionsOf] at haL
    cases hf : p.find? (fun t => t.type_name = tn) with
    | none => rw [hf] at haL; exact absurd haL (by simp)
    | some t =>
      rw [hf] at haL
      have htp : t ∈ p := List.mem_of_find?_eq_some hf
      have htt : t.type_name = tn := by simpa using List.find?_some hf
      rw [List.mem_flatten] at haL
      obtain ⟨c, hc, hac⟩ := haL
      exact ⟨t, htp, htt ▸ htn, c, hc, hac⟩
  · rintro ⟨t, htp, htn, c, hc, hac⟩
    refine ⟨(collectionsOf p t.type_name).flatten, ⟨⟨t.type_name, htn, rfl⟩, ?_⟩⟩
    rw [collectionsOf]
    cases hf : p.find? (fun u => u.type_name = t.type_name) with
    | none =>
      have : (p.find? (fun u => u.type_name = t.type_name)).isSome := by
        rw [List.find?_isSome]
        exact ⟨t, htp, by simp⟩
      rw [hf] at this
      exact absurd this (by simp)
    | some u =>
      have hup : u ∈ p := List.mem_of_find?_eq_some hf
      have hut : u.type_name = t.type_name := by simpa using List.find?_some hf
      have hut2 : u = t := List.inj_on_of_nodup_map hnd hup htp hut
      rw [hut2, List.mem_flatten]
      exact ⟨c, hc, hac⟩

/-- Witness for C4: the distinct-type-names hypothesis holds for the
concrete project and the characterization follows by the theorem. -/
theorem download_all_covers_hardcoded_types_witness :
    (projEx.map ArtifactTypeData.type_name).Nodup
    ∧ (∀ a : String, a ∈ download_all projEx ↔
        ∃ t ∈ projEx, t.type_name ∈ type_names ∧ ∃ c ∈ t.collections, a ∈ c) :=
  ⟨by decide, download_all_covers_hardcoded_types projEx (by decide)⟩

theorem downloadRun_stops_at_failure (ok : String → Bool) :
    ∀ (pre : List String) (bad : String) (post : List String),
      (∀ x ∈ pre, ok x = true) → ok bad = false →
      downloadRun ok (pre ++ bad :: post) = (pre, pre ++ [bad], false) := by
  intro pre
  induction pre with
  | nil =>
    intro bad post _ hbad
    simp [downloadRun, hbad]
  | cons a pre ih =>
    intro bad post hpre hbad
    have ha : ok a = true := hpre a (List.mem_cons_self a pre)
    rw [List.cons_append, downloadRun]
    rw [ih bad post (fun x hx => hpre x (List.mem_cons_of_mem a hx)) hbad]
    simp [ha]

/-- C7 (confirmed): if one artifact's download raises (all earlier ones
in iteration order succeed), the script stops at once: the artifacts before
the failure stay downloaded, the failing artifact is attempted exactly once,
no later artifact is attempted, and the final "Downloaded all artifacts"
message is not printed. -/
theorem download_script_stops_on_error (p : WandbProject) (ok : String → Bool)
    (pre : List String) (bad : String) (post : List String)
    (horder : download_all p = pre ++ bad :: post)
    (hpre : ∀ x ∈ pre, ok x = true) (hbad : ok bad = false) :
    download_script_run p ok = (pre, pre ++ [bad], false) := by
  rw [download_script_run, horder]
  exact downloadRun_stops_at_failure ok pre bad post hpre hbad

/-- Witness for C7: in the concrete project the second artifact's download
raises; only the first is downloaded, the final message is not printed. -/
theorem download_script_stops_on_error_witness :
    download_script_run projEx (fun a => decide (a ≠ "model-b"))
      = (["model-a"], ["model-a", "model-b"], false) :=
  download_script_stops_on_error projEx (fun a => decide (a ≠ "model-b"))
    ["model-a"] "model-b" [] (by decide) (by decide) (by decide)

end JacobianSaes
